import Mathlib

/-!
Verification of the scan/adjudication pipeline of the review-pro backend.

The definitions below are a shallow embedding, translated function by
function from the Python sources under src/backend: the fingerprint and
dedup engine (apps/findings/utils.py), the Finding model and its
occurrence merge (apps/findings/models.py), the SARIF ingestion
(apps/scans/sarif_parser.py), quota-gated admission (apps/scans/views.py,
apps/scans/signals.py, apps/scans/tasks.py), scan lifecycle timing
(apps/scans/signals.py and the worker task), LLM verdict filtering
(apps/findings/models.py, workflows/adjudication_workflow.py), the
multi-agent adjudication pipeline (agents/multi_agent.py) and the
clustering engine (services/clustering_service.py,
workflows/clustering_workflow.py).

Machine-level details are modelled as follows: Python ints are Nat/Int,
SHA-256 is implemented over Nat with explicit reduction mod 2^32,
Django rows are Lean structures, a table is a list of rows, and a
`save`/`create` call is explicit state passing; uniqueness constraints
declared in a model Meta raise an integrity error on a violating insert,
which is modelled by returning the untouched table plus an error value.
Float-valued confidences and similarity scores are modelled as rationals
or reals.
-/

namespace ReviewPro

set_option maxRecDepth 100000

/-! ## Bytes and UTF-8

Python hashes `str.encode("utf-8")`; the encoder below maps each
character to its UTF-8 byte sequence. -/

/-- Reduce to a single byte. -/
def w8 (n : Nat) : Nat := n % 256

/-- UTF-8 bytes of one character (code point), as Python eencodes it. -/
def utf8Char (n : Nat) : List Nat :=
  if n < 0x80 then [n]
  else if n < 0x800 then
    [0xC0 ||| (n >>> 6), 0x80 ||| (n &&& 0x3F)]
  else if n < 0x10000 then
    [0xE0 ||| (n >>> 12), 0x80 ||| ((n >>> 6) &&& 0x3F), 0x80 ||| (n &&& 0x3F)]
  else
    [0xF0 ||| (n >>> 18), 0x80 ||| ((n >>> 12) &&& 0x3F),
     0x80 ||| ((n >>> 6) &&& 0x3F), 0x80 ||| (n &&& 0x3F)]

/-- UTF-8 encoding of a string, the model of `s.encode("utf-8")`. -/
def utf8Bytes (s : String) : List Nat :=
  (s.data.map (fun c => utf8Char c.toNat)).flatten

/-! ## SHA-256

Standard SHA-256 (FIPS 180-4) over `Nat`, words reduced mod `2 ^ 32`;
this is the model of `hashlib.sha256`. -/

/-- Reduce to a 32-bit word. -/
def w32 (n : Nat) : Nat := n % 4294967296

/-- Rotate a 32-bit word right by `n` bits. -/
def rotr (n x : Nat) : Nat := w32 ((x >>> n) ||| (x <<< (32 - n)))

/-- Bitwise complement of a 32-bit word. -/
def wnot (x : Nat) : Nat := x ^^^ 0xFFFFFFFF

/-- SHA-256 Ch function. -/
def shaCh (e f g : Nat) : Nat := (e &&& f) ^^^ (wnot e &&& g)

/-- SHA-256 Maj function. -/
def shaMaj (a b c : Nat) : Nat := (a &&& b) ^^^ (a &&& c) ^^^ (b &&& c)

/-- SHA-256 big sigma 0. -/
def bsig0 (x : Nat) : Nat := rotr 2 x ^^^ rotr 13 x ^^^ rotr 22 x

/-- SHA-256 big sigma 1. -/
def bsig1 (x : Nat) : Nat := rotr 6 x ^^^ rotr 11 x ^^^ rotr 25 x

/-- SHA-256 small sigma 0. -/
def ssig0 (x : Nat) : Nat := rotr 7 x ^^^ rotr 18 x ^^^ (x >>> 3)

/-- SHA-256 small sigma 1. -/
def ssig1 (x : Nat) : Nat := rotr 17 x ^^^ rotr 19 x ^^^ (x >>> 10)

/-- SHA-256 round constants of FIPS 180-4, written in decimal. -/
def shaK : List Nat :=
  [1116352408, 1899447441, 3049323471, 3921009573, 961987163, 1508970993,
   2453635748, 2870763221, 3624381080, 310598401, 607225278, 1426881987,
   1925078388, 2162078206, 2614888103, 3248222580, 3835390401, 4022224774,
   264347078, 604807628, 770255983, 1249150122, 1555081692, 1996064986,
   2554220882, 2821834349, 2952996808, 3210313671, 3336571891, 3584528711,
   113926993, 338241895, 666307205, 773529912, 1294757372, 1396182291,
   1695183700, 1986661051, 2177026350, 2456956037, 2730485921, 2820302411,
   3259730800, 3345764771, 3516065817, 3600352804, 4094571909, 275423344,
   430227734, 506948616, 659060556, 883997877, 958139571, 1322822218,
   1537002063, 1747873779, 1955562222, 2024104815, 2227730452, 2361852424,
   2428436474, 2756734187, 3204031479, 3329325298]

/-- SHA-256 initial hash state of FIPS 180-4, in decimal, as the list
[a, b, c, d, e, f, g, h]. -/
def shaH0 : List Nat :=
  [1779033703, 3144134277, 1013904242, 2773480762,
   1359893119, 2600822924, 528734635, 1541459225]

/-- Element of a word list, 0 past the end. -/
def wAt (l : List Nat) (i : Nat) : Nat := l.getD i 0

/-- SHA-256 message padding: append 0x80, zero bytes to 56 mod 64, then
the bit length as 8 big-endian bytes. -/
def shaPad (msg : List Nat) : List Nat :=
  let len := msg.length
  let zeros := (119 - len % 64) % 64
  let bitLen := len * 8
  msg ++ [0x80] ++ List.replicate zeros 0 ++
    ((List.range 8).map (fun i => w8 (bitLen >>> (8 * (7 - i)))))

/-- Split a byte list into 64-byte blocks; the fuel argument makes the
recursion structural so that it reduces inside the kernel. -/
def shaBlocksAux : Nat → List Nat → List (List Nat)
  | 0, _ => []
  | _ + 1, [] => []
  | fuel + 1, l => l.take 64 :: shaBlocksAux fuel (l.drop 64)

/-- Split a padded message into 64-byte blocks. -/
def shaBlocks (padded : List Nat) : List (List Nat) :=
  shaBlocksAux padded.length padded

/-- First 16 32-bit words (big-endian) of a 64-byte block. -/
def blockWords (block : List Nat) : List Nat :=
  (List.range 16).map (fun i =>
    (wAt block (4 * i)) <<< 24 ||| (wAt block (4 * i + 1)) <<< 16 |||
    (wAt block (4 * i + 2)) <<< 8 ||| wAt block (4 * i + 3))

/-- Extend 16 schedule words to 64. -/
def extendWords (ws : List Nat) : List Nat :=
  (List.range 48).foldl
    (fun acc _ =>
      let t := acc.length
      acc ++ [w32 (ssig1 (wAt acc (t - 2)) + wAt acc (t - 7) +
                   ssig0 (wAt acc (t - 15)) + wAt acc (t - 16))])
    ws

/-- One SHA-256 compression round. -/
def shaRound (st : List Nat) (kw : Nat × Nat) : List Nat :=
  let a := wAt st 0
  let b := wAt st 1
  let c := wAt st 2
  let d := wAt st 3
  let e := wAt st 4
  let f := wAt st 5
  let g := wAt st 6
  let h := wAt st 7
  let t1 := w32 (h + bsig1 e + shaCh e f g + kw.1 + kw.2)
  let t2 := w32 (bsig0 a + shaMaj a b c)
  [w32 (t1 + t2), a, b, c, w32 (d + t1), e, f, g]

/-- Compress one 64-byte block into the running hash state. -/
def shaCompress (hs : List Nat) (block : List Nat) : List Nat :=
  let ws := extendWords (blockWords block)
  let fin := (shaK.zip ws).foldl shaRound hs
  (hs.zip fin).map (fun p => w32 (p.1 + p.2))

/-- SHA-256 digest of a byte list, as the 32 digest bytes. -/
def sha256Bytes (msg : List Nat) : List Nat :=
  let hs := (shaBlocks (shaPad msg)).foldl shaCompress shaH0
  (hs.map (fun hw => [w8 (hw >>> 24), w8 (hw >>> 16), w8 (hw >>> 8), w8 hw])).flatten

/-- Lower-case hex digit. -/
def hexChar (n : Nat) : Char :=
  if n < 10 then Char.ofNat (48 + n) else Char.ofNat (87 + n)

/-- Two-character lower-case hex form of a byte. -/
def byteHex (b : Nat) : String :=
  String.mk [hexChar (b / 16), hexChar (b % 16)]

/-- Model of `hashlib.sha256(bs).hexdigest()`: 64 lower-case hex chars. -/
def sha256hex (msg : List Nat) : String :=
  String.join ((sha256Bytes msg).map byteHex)

/-! ## Python string helpers

Whitespace stripping, lower-casing and single-character replacement as
the fingerprint code uses them (ASCII inputs behave exactly as in
Python). -/

/-- Characters removed by Python `str.strip()`. -/
def pyIsSpace (c : Char) : Bool :=
  c = ' ' ∨ c = '\t' ∨ c = '\n' ∨ c = '\r' ∨ c = Char.ofNat 11 ∨ c = Char.ofNat 12

/-- Model of `s.strip()`. -/
def pyStrip (s : String) : String :=
  String.mk (((s.data.dropWhile pyIsSpace).reverse.dropWhile pyIsSpace).reverse)

/-- Model of `s.lower()` (character-wise lower-casing). -/
def pyLower (s : String) : String :=
  String.mk (s.data.map Char.toLower)

/-- Model of a single-character `s.replace(old, new)`. -/
def pyReplaceChar (old new : Char) (s : String) : String :=
  String.mk (s.data.map (fun c => if c = old then new else c))

/-! ## Fingerprint / dedup engine — apps/findings/utils.py -/

/-- Model of the Python idiom `column or 0`: `None` and `0` both give 0. -/
def pyOrZero : Option Nat → Nat
  | none => 0
  | some c => c

/-- Translation of `generate_finding_fingerprint` (apps/findings/utils.py):
normalize the path (strip, lower, backslash to slash), digest the message
to 16 hex chars, join the five components with a pipe separator, and
SHA-256 the concatenation. -/
def generate_finding_fingerprint (rule_id file_path : String) (start_line : Nat)
    (column : Option Nat) (message : String) : String :=
  let normalized_path := pyReplaceChar '\\' '/' (pyLower (pyStrip file_path))
  let message_hash := (sha256hex (utf8Bytes message)).take 16
  let components := [pyStrip rule_id, normalized_path, toString start_line,
                     toString (pyOrZero column), message_hash]
  sha256hex (utf8Bytes (String.intercalate "|" components))

/-! ## Finding model — apps/findings/models.py

One row of the `findings` table. UUIDs and datetimes are modelled as
naturals; `Meta.unique_together` declares at most one row per
(organization, fingerprint). -/

/-- One Finding row. -/
structure Finding where
  id : Nat
  organization : Nat
  repository : Nat
  first_seen_scan : Nat
  last_seen_scan : Nat
  fingerprint : String
  rule_id : String
  rule_name : Option String
  message : String
  severity : String
  status : String
  file_path : String
  start_line : Nat
  start_column : Nat
  end_line : Option Nat
  end_column : Option Nat
  snippet : Option String
  tool_name : String
  tool_version : String
  cwe_ids : List String
  cve_ids : List String
  occurrence_count : Nat
  first_seen_at : Nat
  last_seen_at : Nat
deriving Repr, DecidableEq

/-- Translation of `Finding.update_occurrence`: bump the counter, move the
last-seen scan pointer, and save; `last_seen_at` is an `auto_now` field so
the save also sets it to the current time. -/
def Finding.update_occurrence (f : Finding) (scan : Nat) (now : Nat) : Finding :=
  { f with occurrence_count := f.occurrence_count + 1,
           last_seen_scan := scan,
           last_seen_at := now }

/-- Dedup match predicate of `deduplicate_finding`: same organization and
fingerprint, and a status that is still open or in review. -/
def isDedupMatch (organization_id : Nat) (fingerprint : String) (f : Finding) : Bool :=
  f.organization == organization_id && f.fingerprint == fingerprint &&
    (f.status == "open" || f.status == "in_review")

/-- Translation of `deduplicate_finding` (apps/findings/utils.py): first
finding of the organization with this fingerprint whose status is open or
in_review; resolved and dismissed findings are not matched. The source
takes `.first()` under the model Meta ordering; since the uniqueness
constraint allows at most one row per (organization, fingerprint), at
most one row can match and the choice of order is immaterial. -/
def deduplicate_finding (db : List Finding) (fingerprint : String)
    (organization_id : Nat) : Option Finding :=
  db.find? (isDedupMatch organization_id fingerprint)

/-- Save of `update_occurrence` applied to the row `deduplicate_finding`
matched: the first dedup match in table order is replaced in place. -/
def updateFirstMatch (organization_id : Nat) (fingerprint : String)
    (scan now : Nat) : List Finding → List Finding
  | [] => []
  | f :: rest =>
    if isDedupMatch organization_id fingerprint f then
      f.update_occurrence scan now :: rest
    else
      f :: updateFirstMatch organization_id fingerprint scan now rest

/-- Model of `Finding.objects.create`: the `unique_together`
(organization, fingerprint) constraint of `Finding.Meta` makes the insert
fail with an integrity error when a row with the same key already exists,
whatever its status. -/
def insertFinding (db : List Finding) (f : Finding) : Except String (List Finding) :=
  if db.any (fun g => g.organization == f.organization && g.fingerprint == f.fingerprint) then
    Except.error "IntegrityError: duplicate organization and fingerprint"
  else
    Except.ok (db ++ [f])

/-! ## SARIF ingestion — apps/scans/sarif_parser.py

A SARIF result is modelled by the fields the code reads; a missing
JSON key is `none`, matching each `dict.get` with its default. -/

/-- One entry of a result `locations` array, flattened to the fields the
code reads through `physicalLocation`, `artifactLocation` and `region`. -/
structure SarifLocation where
  uri : Option String
  startLine : Option Nat
  startColumn : Option Nat
  endLine : Option Nat
  endColumn : Option Nat
  snippetText : Option String
deriving Repr, DecidableEq

/-- One SARIF result: rule id, level, message text, locations and the
tag and taxon identifiers scanned for CWE/CVE prefixes. -/
structure SarifResult where
  ruleId : Option String
  level : Option String
  messageText : Option String
  locations : List SarifLocation
  tags : List String
  taxa : List String
deriving Repr, DecidableEq

/-- Tool name and version of `_extract_tool_info`. -/
structure ToolInfo where
  name : String
  version : String
deriving Repr, DecidableEq

/-- One SARIF run: driver info and results. -/
structure SarifRun where
  toolName : Option String
  toolVersion : Option String
  results : List SarifResult
deriving Repr, DecidableEq

/-- A SARIF document: its runs. -/
structure SarifDoc where
  runs : List SarifRun
deriving Repr, DecidableEq

/-- Translation of `SEVERITY_MAP.get(level, "medium")`. -/
def severityMap (level : String) : String :=
  if level = "error" then "high"
  else if level = "warning" then "medium"
  else if level = "note" then "low"
  else if level = "none" then "info"
  else "medium"

/-- Translation of `_extract_tool_info`. -/
def toolInfoOf (run : SarifRun) : ToolInfo :=
  { name := run.toolName.getD "Unknown", version := run.toolVersion.getD "" }

/-- Translation of `_extract_cwe_cve`: tags first, then taxa, keeping the
identifiers with the matching prefix in order. -/
def extract_cwe_cve (result : SarifResult) : List String × List String :=
  (result.tags.filter (fun t => t.startsWith "CWE-") ++
     result.taxa.filter (fun t => t.startsWith "CWE-"),
   result.tags.filter (fun t => t.startsWith "CVE-") ++
     result.taxa.filter (fun t => t.startsWith "CVE-"))

/-- Translation of `_get_rule_name`: a bracketed message yields its
stripped head, otherwise the rule id. -/
def get_rule_name (result : SarifResult) (rule_id : String) : String :=
  match result.messageText with
  | some text =>
    if text.data.contains '[' ∧ text.data.contains ']' then
      pyStrip ((text.splitOn "[").headD text)
    else rule_id
  | none => rule_id

/-- Mutable state of one `SARIFParser` pass plus the findings table it
writes to; `nextId` supplies fresh primary keys. -/
structure IngestState where
  db : List Finding
  findings_created : Nat
  findings_updated : Nat
  errors : List String
  nextId : Nat
deriving Repr, DecidableEq

/-- Translation of `SARIFParser._process_result` together with the
`extract_findings` exception handler around it: a result without
locations is skipped; a dedup hit updates the matched finding in place;
otherwise a new open finding is inserted, and an insert rejected by the
uniqueness constraint is recorded as a per-result error. -/
def process_result (ti : ToolInfo) (scan organization repository now : Nat)
    (st : IngestState) (result : SarifResult) : IngestState :=
  let rule_id := result.ruleId.getD "UNKNOWN"
  let severity := severityMap (result.level.getD "warning")
  let message := result.messageText.getD "No description available"
  match result.locations with
  | [] => st
  | location :: _ =>
    let file_path := location.uri.getD "unknown"
    let start_line := location.startLine.getD 1
    let start_column := location.startColumn.getD 1
    let snippet := location.snippetText.getD ""
    let ids := extract_cwe_cve result
    let fingerprint := generate_finding_fingerprint rule_id file_path start_line
      (some start_column) message
    match deduplicate_finding st.db fingerprint organization with
    | some _ =>
      { st with db := updateFirstMatch organization fingerprint scan now st.db,
                findings_updated := st.findings_updated + 1 }
    | none =>
      let f : Finding :=
        { id := st.nextId, organization, repository,
          first_seen_scan := scan, last_seen_scan := scan, fingerprint,
          rule_id, rule_name := some (get_rule_name result rule_id),
          message, severity, status := "open", file_path, start_line, start_column,
          end_line := location.endLine, end_column := location.endColumn,
          snippet := if snippet = "" then none else some (snippet.take 1000),
          tool_name := ti.name, tool_version := ti.version,
          cwe_ids := ids.1, cve_ids := ids.2,
          occurrence_count := 1, first_seen_at := now, last_seen_at := now }
      match insertFinding st.db f with
      | Except.ok db2 =>
        { st with db := db2, findings_created := st.findings_created + 1,
                  nextId := st.nextId + 1 }
      | Except.error e =>
        { st with errors := st.errors ++ ["Error processing SARIF result: " ++ e] }

/-- Translation of `SARIFParser.extract_findings`: reset the counters,
then process every result of every run against the findings table. -/
def extract_findings (doc : SarifDoc) (scan organization repository now : Nat)
    (db : List Finding) (nextId : Nat) : IngestState :=
  let st0 : IngestState :=
    { db, findings_created := 0, findings_updated := 0, errors := [], nextId }
  doc.runs.foldl
    (fun st run =>
      run.results.foldl (process_result (toolInfoOf run) scan organization repository now) st)
    st0

/-! ## Scan rows and lifecycle timing — apps/scans/models.py,
apps/scans/signals.py, apps/scans/tasks.py -/

/-- One Scan row, restricted to the fields the lifecycle logic touches. -/
structure ScanRec where
  id : Nat
  organization : Nat
  status : String
  started_at : Option Nat
  completed_at : Option Nat
  duration_seconds : Option Int
  error_message : Option String
  sarif_file_size : Option Nat
deriving Repr, DecidableEq

/-- Terminal statuses of the scan state machine. -/
def isTerminalStatus (s : String) : Bool :=
  s == "completed" || s == "failed" || s == "cancelled"

/-- Translation of the `scan_pre_save` signal (apps/scans/signals.py) for
an existing row: when the status changes to running and no start time is
set, stamp it; when the status changes to a terminal one, stamp the
completion time if unset and derive the duration from the two stamps. -/
def scan_pre_save (now : Nat) (old inst : ScanRec) : ScanRec :=
  if old.status ≠ inst.status then
    if inst.status = "running" ∧ inst.started_at = none then
      { inst with started_at := some now }
    else if isTerminalStatus inst.status then
      let inst1 := if inst.completed_at = none then { inst with completed_at := some now } else inst
      match inst1.started_at, inst1.completed_at with
      | some s, some c => { inst1 with duration_seconds := some ((c : Int) - (s : Int)) }
      | _, _ => inst1
    else inst
  else inst

/-- Django `save(update_fields=...)`: only the listed columns are written
back to the row; a full save (`none`) writes every column. -/
def persistFields (dbRow inst : ScanRec) (fields : Option (List String)) : ScanRec :=
  match fields with
  | none => inst
  | some fs =>
    { dbRow with
      status := if fs.contains "status" then inst.status else dbRow.status,
      started_at := if fs.contains "started_at" then inst.started_at else dbRow.started_at,
      completed_at := if fs.contains "completed_at" then inst.completed_at else dbRow.completed_at,
      duration_seconds := if fs.contains "duration_seconds" then inst.duration_seconds else dbRow.duration_seconds,
      error_message := if fs.contains "error_message" then inst.error_message else dbRow.error_message,
      sarif_file_size := if fs.contains "sarif_file_size" then inst.sarif_file_size else dbRow.sarif_file_size }

/-- A `scan.save(...)` on an existing row: the pre-save signal runs on the
in-memory instance, then the selected columns are persisted. -/
def scanSave (dbRow inst : ScanRec) (fields : Option (List String)) (now : Nat) : ScanRec :=
  persistFields dbRow (scan_pre_save now dbRow inst) fields

/-- A save that only assigns a new status, as the cancel endpoint does:
`scan.status = ...; scan.save()`. -/
def statusSave (dbRow : ScanRec) (s : String) (now : Nat) : ScanRec :=
  scanSave dbRow { dbRow with status := s } none now

/-- Translation of `run_security_scan` entering the running state
(apps/scans/tasks.py): the task assigns `status` and `started_at` itself
and saves them with `update_fields`. -/
def task_mark_running (dbRow : ScanRec) (now : Nat) : ScanRec :=
  scanSave dbRow { dbRow with status := "running", started_at := some now }
    (some ["status", "started_at"]) now

/-- Translation of `run_security_scan` marking completion: the task
assigns `status` and `completed_at` itself and saves those two columns. -/
def task_mark_completed (dbRow : ScanRec) (now : Nat) : ScanRec :=
  scanSave dbRow { dbRow with status := "completed", completed_at := some now }
    (some ["status", "completed_at"]) now

/-! ## Quota-gated admission — apps/organizations/models.py,
apps/scans/views.py, apps/scans/signals.py, apps/scans/tasks.py -/

/-- The Organization fields admission reads. -/
structure Organization where
  id : Nat
  is_active : Bool
  scan_quota_monthly : Nat
  storage_quota_gb : Nat
deriving Repr, DecidableEq

/-- One QuotaUsage row: per-organization, per-(year, month) counters. -/
structure QuotaUsage where
  organization : Nat
  year : Nat
  month : Nat
  scans_used : Nat
  storage_used_bytes : Nat
deriving Repr, DecidableEq

/-- Translation of the `storage_used_gb` property. -/
def storage_used_gb (q : QuotaUsage) : ℚ :=
  (q.storage_used_bytes : ℚ) / (1024 ^ 3)

/-- Backend state the admission path touches. -/
structure BackendState where
  quotas : List QuotaUsage
  scans : List ScanRec
  nextScanId : Nat
deriving Repr, DecidableEq

/-- Model of `QuotaUsage.objects.get_or_create` for the current period:
an absent row is created with zero counters and persisted at once. -/
def getOrCreateQuota (quotas : List QuotaUsage) (organization year month : Nat) :
    QuotaUsage × List QuotaUsage :=
  match quotas.find? (fun q => q.organization == organization && q.year == year && q.month == month) with
  | some q => (q, quotas)
  | none =>
    let q : QuotaUsage := { organization, year, month, scans_used := 0, storage_used_bytes := 0 }
    (q, quotas ++ [q])

/-- Persisted scan counter of the period, 0 when no row exists. -/
def scansUsed (st : BackendState) (organization year month : Nat) : Nat :=
  match st.quotas.find? (fun q => q.organization == organization && q.year == year && q.month == month) with
  | some q => q.scans_used
  | none => 0

/-- Translation of `ScanViewSet.perform_create` (apps/scans/views.py):
reject an inactive organization, get-or-create the period quota row,
reject when `scans_used` has reached the monthly quota, log (only) a
warning when the storage quota is reached, and otherwise create the scan
in status pending. Returns the state, the raised validation error, and
whether the storage warning was logged. -/
def perform_create (org : Organization) (year month : Nat) (st : BackendState) :
    BackendState × Option String × Bool :=
  if !org.is_active then
    (st, some "Organization is not active", false)
  else
    let gc := getOrCreateQuota st.quotas org.id year month
    if gc.1.scans_used ≥ org.scan_quota_monthly then
      ({ st with quotas := gc.2 }, some "Monthly scan quota exceeded", false)
    else
      -- storage at or over quota only logs a warning and never rejects
      let warned := decide ((org.storage_quota_gb : ℚ) ≤ storage_used_gb gc.1)
      let scan : ScanRec :=
        { id := st.nextScanId, organization := org.id, status := "pending",
          started_at := none, completed_at := none, duration_seconds := none,
          error_message := none, sarif_file_size := none }
      ({ st with quotas := gc.2, scans := st.scans ++ [scan],
                 nextScanId := st.nextScanId + 1 }, none, warned)

/-- Translation of the `update_quota_usage` task (apps/scans/tasks.py).
The task gets-or-creates the period row and bumps `scans_used` on the
in-memory object, but the next statement evaluates `models.Sum(...)` and
the name `models` is unbound in apps/scans/tasks.py, so Python raises a
NameError there; the `except` clause logs and re-raises, and
`quota.save()` is never reached, so the bumped counter is not persisted. -/
def update_quota_usage (st : BackendState) (organization_id : Nat)
    (scan_id : Option Nat) (year month : Nat) : BackendState × Option String :=
  let gc := getOrCreateQuota st.quotas organization_id year month
  let _bumped :=
    if scan_id.isSome then { gc.1 with scans_used := gc.1.scans_used + 1 } else gc.1
  ({ st with quotas := gc.2 }, some "NameError: name models is not defined")

/-- Outcome of one admission attempt. -/
structure AdmissionResult where
  state : BackendState
  error : Option String
  storage_warning : Bool
  task_error : Option String
deriving Repr, DecidableEq

/-- Admission as the caller sees it: `perform_create`, then the
`scan_post_save` signal (apps/scans/signals.py) runs the queued
`update_quota_usage` task for the newly created scan. -/
def admit_scan (org : Organization) (year month : Nat) (st : BackendState) :
    AdmissionResult :=
  match perform_create org year month st with
  | (st1, some err, warned) =>
    { state := st1, error := some err, storage_warning := warned, task_error := none }
  | (st1, none, warned) =>
    let r := update_quota_usage st1 org.id (some (st1.nextScanId - 1)) year month
    { state := r.1, error := none, storage_warning := warned, task_error := r.2 }

/-! ## LLM verdicts and the should-filter rule —
apps/findings/models.py, workflows/adjudication_workflow.py -/

/-- One LLMVerdict row, restricted to the fields the filter rule reads;
confidence is a rational in [0, 1]. -/
structure LLMVerdict where
  finding : Nat
  verdict : String
  confidence : ℚ
  reasoning : String
  agent_pattern : String
deriving Repr, DecidableEq

/-- Translation of the `LLMVerdict.should_filter` property: a
false-positive verdict with confidence at least 0.7. -/
def should_filter (v : LLMVerdict) : Bool :=
  v.verdict == "false_positive" && decide ((7 : ℚ) / 10 ≤ v.confidence)

/-- Parsed agent output, as the adjudication activity receives it. -/
structure AgentVerdict where
  verdict : String
  confidence : ℚ
  reasoning : String
deriving Repr, DecidableEq

/-- Findings plus their verdict rows. -/
structure AdjudicationState where
  db : List Finding
  verdicts : List LLMVerdict
deriving Repr, DecidableEq

/-- Translation of the persistence part of the `adjudicate_finding`
activity (workflows/adjudication_workflow.py): append the verdict row
(verdicts are append-only) and, exactly when `should_filter` holds, save
the finding with status false_positive. -/
def adjudicate_store (st : AdjudicationState) (finding_id : Nat)
    (r : AgentVerdict) (pattern : String) : AdjudicationState :=
  let v : LLMVerdict :=
    { finding := finding_id, verdict := r.verdict, confidence := r.confidence,
      reasoning := r.reasoning, agent_pattern := pattern }
  let db2 :=
    if should_filter v then
      st.db.map (fun f => if f.id == finding_id then { f with status := "false_positive" } else f)
    else st.db
  { db := db2, verdicts := st.verdicts ++ [v] }

/-! ## Multi-agent pipeline — agents/multi_agent.py

The three LLM passes are modelled by their parsed JSON results; a
missing key is `none`, matching each `dict.get`. The outcome records
which passes were invoked. -/

/-- Parsed triage output. -/
structure TriageResult where
  classification : Option String
  confidence : Option ℚ
  reasoning : Option String
deriving Repr, DecidableEq

/-- Parsed explainer output. -/
structure ExplainerResult where
  verdict : Option String
  confidence : Option ℚ
  explanation : Option String
  cwe_id : Option String
deriving Repr, DecidableEq

/-- Parsed fixer output; `none` models the empty dict an unparseable
response collapses to, which is falsy in the source. -/
structure FixerResult where
  fix_recommendation : Option String
  alternative_approaches : List String
deriving Repr, DecidableEq

/-- Result of `MultiAgentAnalyzer.adjudicate_finding`, with the two
invocation flags recording which later passes actually ran. -/
structure MultiAgentOutcome where
  verdict : String
  confidence : ℚ
  reasoning : String
  cwe_id : Option String
  recommendation : Option String
  agent_pattern : String
  pipeline : String
  explainer_invoked : Bool
  fixer_invoked : Bool
deriving Repr, DecidableEq

/-- Recommendation text built from a fixer result. -/
def fixerRecommendation (fx : FixerResult) : String :=
  fx.fix_recommendation.getD "" ++
    (if fx.alternative_approaches.isEmpty then ""
     else "\n\nAlternative approaches:\n" ++
       String.intercalate "\n" (fx.alternative_approaches.map (fun alt => "- " ++ alt)))

/-- Translation of `MultiAgentAnalyzer.adjudicate_finding`
(agents/multi_agent.py): when triage classifies FALSE_POSITIVE with
confidence at least 0.9 the pipeline returns a verdict built from the
triage result alone and the explainer and fixer are never invoked;
otherwise the explainer runs, and the fixer runs exactly when the
explainer verdict is true_positive. -/
def multi_agent_adjudicate (triage : TriageResult) (explainer : ExplainerResult)
    (fixer : Option FixerResult) : MultiAgentOutcome :=
  let classification := triage.classification.getD "REVIEW"
  if classification = "FALSE_POSITIVE" ∧ (9 : ℚ) / 10 ≤ triage.confidence.getD 0 then
    { verdict := "false_positive",
      confidence := triage.confidence.getD ((9 : ℚ) / 10),
      reasoning := "Triage agent: " ++ triage.reasoning.getD "False positive",
      cwe_id := none, recommendation := none,
      agent_pattern := "multi_agent",
      pipeline := "early_exit_after_triage",
      explainer_invoked := false, fixer_invoked := false }
  else
    let fixerRuns := explainer.verdict == some "true_positive"
    { verdict := explainer.verdict.getD "uncertain",
      confidence := explainer.confidence.getD ((1 : ℚ) / 2),
      reasoning := explainer.explanation.getD "",
      cwe_id := explainer.cwe_id,
      recommendation :=
        if fixerRuns then
          match fixer with
          | some fx => some (fixerRecommendation fx)
          | none => none
        else none,
      agent_pattern := "multi_agent",
      pipeline := "full_pipeline",
      explainer_invoked := true, fixer_invoked := fixerRuns }

/-! ## Clustering — services/clustering_service.py,
workflows/clustering_workflow.py

Embeddings are real vectors; `np.linalg.norm` is the euclidean norm,
`np.mean(X, axis=0)` the componentwise mean, `np.argmin` the first index
attaining the minimum. -/

/-- An embedding vector. -/
abbrev Vec := List ℝ

/-- Componentwise difference. -/
def vecSub (a b : Vec) : Vec := List.zipWith (fun x y => x - y) a b

/-- Dot product. -/
def vecDot (a b : Vec) : ℝ := (List.zipWith (fun x y => x * y) a b).sum

/-- Euclidean norm, the model of `np.linalg.norm`. -/
noncomputable def vecNorm (v : Vec) : ℝ := Real.sqrt ((v.map (fun x => x ^ 2)).sum)

/-- Componentwise mean of a nonempty vector list, the model of
`np.mean(X, axis=0)`. -/
noncomputable def centroidOf (vs : List Vec) : Vec :=
  match vs with
  | [] => []
  | v0 :: _ =>
    (List.range v0.length).map (fun i => (vs.map (fun v => v.getD i 0)).sum / vs.length)

/-- Distances of the members to their centroid, in member order. -/
noncomputable def distancesToCentroid (vs : List Vec) : List ℝ :=
  vs.map (fun v => vecNorm (vecSub v (centroidOf vs)))

/-- Mean distance to the centroid — the quantity the spec subtracts from
one to define cohesion. -/
noncomputable def meanDistToCentroid (vs : List Vec) : ℝ :=
  (distancesToCentroid vs).sum / (vs.length : ℝ)

/-- First index of the minimum, the model of `np.argmin`. -/
noncomputable def argminIdx : List ℝ → Nat
  | [] => 0
  | [_] => 0
  | x :: y :: xs =>
    let j := argminIdx (y :: xs)
    if x ≤ (y :: xs).getD j 0 then 0 else j + 1

/-- Translation of `ClusteringService.identify_cluster_representative`:
a singleton cluster keeps its only member, otherwise the member whose
embedding is nearest the centroid is chosen. -/
noncomputable def identify_cluster_representative (cluster_embeddings : List Vec)
    (cluster_finding_ids : List Nat) : Nat :=
  if cluster_finding_ids.length = 1 then cluster_finding_ids.headD 0
  else
    let centroid := centroidOf cluster_embeddings
    let distances := cluster_embeddings.map (fun v => vecNorm (vecSub v centroid))
    cluster_finding_ids.getD (argminIdx distances) 0

/-- Cluster statistics the code stores; only the fields read downstream
are modelled. -/
structure ClusterStats where
  cluster_size : Nat
  avg_distance_to_centroid : ℝ
  avg_pairwise_similarity : ℝ
  cohesion_score : ℝ

/-- Cosine similarities of all member pairs in order, skipping pairs with
a zero-norm side, as the double loop of the source builds them. -/
noncomputable def pairwiseSims : List Vec → List ℝ
  | [] => []
  | v :: rest =>
    (rest.filterMap (fun u =>
      if 0 < vecNorm v ∧ 0 < vecNorm u then
        some (vecDot v u / (vecNorm v * vecNorm u))
      else none)) ++ pairwiseSims rest

/-- Translation of `ClusteringService.calculate_cluster_statistics`:
mean distance to the centroid, mean pairwise similarity, and cohesion
defined as one minus the mean distance. -/
noncomputable def calculate_cluster_statistics (vs : List Vec) : ClusterStats :=
  if vs.isEmpty then
    { cluster_size := 0, avg_distance_to_centroid := 0,
      avg_pairwise_similarity := 0, cohesion_score := 0 }
  else
    let dists := distancesToCentroid vs
    let avg_distance := dists.sum / (dists.length : ℝ)
    let sims := pairwiseSims vs
    { cluster_size := vs.length,
      avg_distance_to_centroid := avg_distance,
      avg_pairwise_similarity := if sims.isEmpty then 0 else sims.sum / (sims.length : ℝ),
      cohesion_score := 1 - avg_distance }

/-- One FindingCluster row; `Meta.unique_together` declares at most one
row per (organization, cluster_label). -/
structure FindingCluster where
  id : Nat
  organization : Nat
  cluster_label : String
  representative_finding : Nat
  size : Nat
  avg_similarity : ℝ
  cohesion_score : ℝ
  algorithm : String
  similarity_threshold : ℝ

/-- One FindingClusterMembership row. -/
structure ClusterMembership where
  finding : Nat
  cluster : Nat
  distance_to_centroid : ℝ

/-- Persisted clustering tables. -/
structure ClusterState where
  clusters : List FindingCluster
  memberships : List ClusterMembership
  nextClusterId : Nat

/-- Embedding of a finding id through `dict(zip(finding_ids, embeddings))`. -/
def embOf (finding_ids : List Nat) (embeddings : List Vec) (fid : Nat) : Vec :=
  match (finding_ids.zip embeddings).find? (fun p => p.1 == fid) with
  | some p => p.2
  | none => []

/-- Loop body of `store_clusters` (workflows/clustering_workflow.py).
For each produced cluster: compute statistics, load the member findings,
skip an empty group, take the FIRST member as representative (the source
comment reads: use first finding as representative, could be improved),
insert the cluster row — the (organization, cluster_label) uniqueness
constraint raises an integrity error when a row from an earlier run still
exists, aborting the loop with the rows created so far kept, since
nothing is deleted first and no transaction wraps the loop — and insert
one membership per member with `distance_to_centroid` hard-coded to 0. -/
noncomputable def store_clusters_go (organization : Nat) (embeddings : List Vec)
    (finding_ids : List Nat) (algorithm : String) (similarity_threshold : ℝ)
    (findingsDb : List Finding) :
    List (String × List Nat) → ClusterState → Nat → ClusterState × Nat × Option String
  | [], st, stored => (st, stored, none)
  | (label, fids) :: rest, st, stored =>
    let cluster_embeddings := fids.map (embOf finding_ids embeddings)
    let stats := calculate_cluster_statistics cluster_embeddings
    let objs := fids.filterMap (fun fid => findingsDb.find? (fun f => f.id == fid))
    match objs with
    | [] =>
      store_clusters_go organization embeddings finding_ids algorithm
        similarity_threshold findingsDb rest st stored
    | representative :: _ =>
      if st.clusters.any (fun c => c.organization == organization && c.cluster_label == label) then
        (st, stored, some "IntegrityError: duplicate organization and cluster_label")
      else
        let cid := st.nextClusterId
        let cluster : FindingCluster :=
          { id := cid, organization, cluster_label := label,
            representative_finding := representative.id, size := fids.length,
            avg_similarity := stats.avg_pairwise_similarity,
            cohesion_score := stats.cohesion_score,
            algorithm, similarity_threshold }
        let mems := objs.map (fun obj =>
          ({ finding := obj.id, cluster := cid, distance_to_centroid := 0 } : ClusterMembership))
        store_clusters_go organization embeddings finding_ids algorithm
          similarity_threshold findingsDb rest
          { clusters := st.clusters ++ [cluster],
            memberships := st.memberships ++ mems,
            nextClusterId := cid + 1 }
          (stored + 1)

/-- Translation of `store_clusters`: run the loop over the produced
clusters, returning the persisted tables, the stored count, and the
integrity error if one aborted the loop. -/
noncomputable def store_clusters (organization : Nat) (clusters : List (String × List Nat))
    (embeddings : List Vec) (finding_ids : List Nat) (algorithm : String)
    (similarity_threshold : ℝ) (findingsDb : List Finding) (st : ClusterState) :
    ClusterState × Nat × Option String :=
  store_clusters_go organization embeddings finding_ids algorithm
    similarity_threshold findingsDb clusters st 0

/-! ## Derived notions used by the statements and proofs -/

/-- Fingerprint `_process_result` computes for a result with locations. -/
def fpOfResult (r : SarifResult) : String :=
  match r.locations with
  | [] => ""
  | location :: _ =>
    generate_finding_fingerprint (r.ruleId.getD "UNKNOWN") (location.uri.getD "unknown")
      (location.startLine.getD 1) (some (location.startColumn.getD 1))
      (r.messageText.getD "No description available")

/-- A finding with its three merge-volatile fields (occurrence counter,
last-seen scan, last-seen time) blanked; two findings with the same core
agree on every field a dedup merge must not touch. -/
def coreOf (f : Finding) : Finding :=
  { f with occurrence_count := 0, last_seen_scan := 0, last_seen_at := 0 }

/-- Some row of the table carries this (organization, fingerprint) key,
whatever its status. -/
def dedupKeyPresent (organization : Nat) (fp : String) (db : List Finding) : Prop :=
  ∃ f ∈ db, f.organization = organization ∧ f.fingerprint = fp

/-- Relation between a table row before and after one ingestion pass
with scan pointer `scan` at time `now`: the row is either untouched, or
it is an occurrence merge — core fields unchanged, occurrence counter
strictly increased, and the last-seen scan pointer and timestamp moved
to this pass. -/
def mergedRow (scan now : Nat) (a b : Finding) : Prop :=
  b = a ∨ (coreOf a = coreOf b ∧ a.occurrence_count < b.occurrence_count ∧
    b.last_seen_scan = scan ∧ b.last_seen_at = now)

/-- Some row of the table is an actual dedup match for this key: same
organization and fingerprint AND a status dedup still considers. -/
def matchablePresent (organization : Nat) (fp : String) (db : List Finding) : Prop :=
  ∃ f ∈ db, isDedupMatch organization fp f = true

/-- Fold of `process_result` over tool/result pairs; `extract_findings`
is this fold over the pairs of the document. -/
def processPairs (scan organization repository now : Nat) (st : IngestState)
    (l : List (ToolInfo × SarifResult)) : IngestState :=
  l.foldl (fun st p => process_result p.1 scan organization repository now st p.2) st

/-- The tool/result pairs of a document, in processing order. -/
def docPairs (doc : SarifDoc) : List (ToolInfo × SarifResult) :=
  (doc.runs.map (fun run => run.results.map (fun r => (toolInfoOf run, r)))).flatten

/-- Number of results of the document that carry a location — the
results the parser does not skip. -/
def locatedCount (doc : SarifDoc) : Nat :=
  ((docPairs doc).filter (fun p => !p.2.locations.isEmpty)).length

/-- A sample Finding row for concrete instances. -/
def sampleFinding (id organization : Nat) (fingerprint status : String) : Finding :=
  { id, organization, repository := 1, first_seen_scan := 1, last_seen_scan := 1,
    fingerprint, rule_id := "SEC-001", rule_name := some "SEC-001",
    message := "SQL injection", severity := "high", status,
    file_path := "src/app.py", start_line := 10, start_column := 1,
    end_line := none, end_column := none, snippet := none,
    tool_name := "semgrep", tool_version := "1.0",
    cwe_ids := [], cve_ids := [], occurrence_count := 1,
    first_seen_at := 100, last_seen_at := 100 }

/-- A sample Scan row for concrete instances. -/
def sampleScan (status : String) (started_at completed_at : Option Nat) : ScanRec :=
  { id := 1, organization := 1, status, started_at, completed_at,
    duration_seconds := none, error_message := none, sarif_file_size := none }

/-- A sample SARIF result with one location. -/
def sampleResult (ruleId uri message : String) (line col : Nat) : SarifResult :=
  { ruleId := some ruleId, level := some "error", messageText := some message,
    locations := [{ uri := some uri, startLine := some line, startColumn := some col,
                    endLine := none, endColumn := none, snippetText := none }],
    tags := [], taxa := [] }

/-- Fingerprint of the sample result re-detecting a resolved finding. -/
def c2Fingerprint : String :=
  generate_finding_fingerprint "SEC-001" "src/app.py" 10 (some 1) "SQL injection"

/-- Findings table used by the concrete clustering runs. -/
def clusterFindingsDb : List Finding :=
  [sampleFinding 1 1 "fp1" "open", sampleFinding 2 1 "fp2" "open",
   sampleFinding 3 1 "fp3" "open"]

/-- One-dimensional embeddings of the three cluster members. -/
noncomputable def c8Embeddings : List Vec := [[4], [0], [2]]

/-- Member ids of the concrete cluster. -/
def c8Ids : List Nat := [1, 2, 3]

/-- Clustering output with a single cluster of the three findings. -/
def c8Clusters : List (String × List Nat) := [("cluster_0", [1, 2, 3])]

/-- First concrete clustering run, against empty cluster tables. -/
noncomputable def c8Run : ClusterState × Nat × Option String :=
  store_clusters 1 c8Clusters c8Embeddings c8Ids "dbscan" ((85 : ℝ) / 100)
    clusterFindingsDb { clusters := [], memberships := [], nextClusterId := 1 }

/-- Second clustering run over the same scope, against the tables the
first run left behind. -/
noncomputable def c8Run2 : ClusterState × Nat × Option String :=
  store_clusters 1 c8Clusters c8Embeddings c8Ids "dbscan" ((85 : ℝ) / 100)
    clusterFindingsDb (c8Run).1

/-- A one-run, one-result document for the concrete double-ingestion. -/
def c1Doc : SarifDoc :=
  { runs := [{ toolName := some "semgrep", toolVersion := some "1.0",
               results := [sampleResult "SEC-001" "src/app.py" "SQL injection" 10 1] }] }

/-- A result re-sighting the `c2Fingerprint` finding with a different
level and snippet: the fingerprint inputs agree, the other payload does
not. -/
def c10Result : SarifResult :=
  { ruleId := some "SEC-001", level := some "note",
    messageText := some "SQL injection",
    locations := [{ uri := some "src/app.py", startLine := some 10, startColumn := some 1,
                    endLine := none, endColumn := none,
                    snippetText := some "cursor.execute(q)" }],
    tags := [], taxa := [] }

/-! # Theorems -/

/-! ## C4 — the should-filter threshold -/

/-- C4: for every persisted verdict, the status written back to the
finding table is false_positive exactly when the verdict class is
false_positive with confidence at least 0.7 and the row is the
adjudicated finding, every other field of every row being kept; at the
boundary, confidence 0.7 sets the status of an open finding and 0.69
leaves it open. -/
theorem should_filter_threshold (st : AdjudicationState) (fid : Nat)
    (r : AgentVerdict) (pat : String) :
    ((adjudicate_store st fid r pat).verdicts =
        st.verdicts ++ [{ finding := fid, verdict := r.verdict, confidence := r.confidence,
                          reasoning := r.reasoning, agent_pattern := pat }]) ∧
    List.Forall₂ (fun f f' =>
        f'.status = (if f.id = fid ∧ r.verdict = "false_positive" ∧ (7 : ℚ) / 10 ≤ r.confidence
                     then "false_positive" else f.status) ∧
        { f' with status := f.status } = f)
      st.db (adjudicate_store st fid r pat).db ∧
    ((adjudicate_store ⟨[sampleFinding 1 1 "fp" "open"], []⟩ 1
        ⟨"false_positive", 7 / 10, "reason"⟩ "post_processing").db.map Finding.status
      = ["false_positive"]) ∧
    ((adjudicate_store ⟨[sampleFinding 1 1 "fp" "open"], []⟩ 1
        ⟨"false_positive", 69 / 100, "reason"⟩ "post_processing").db.map Finding.status
      = ["open"]) := by
  refine ⟨rfl, ?_, ?_, ?_⟩
  · show List.Forall₂ _ st.db (adjudicate_store st fid r pat).db
    by_cases h : should_filter
        { finding := fid, verdict := r.verdict, confidence := r.confidence,
          reasoning := r.reasoning, agent_pattern := pat } = true
    · have hdb : (adjudicate_store st fid r pat).db =
          st.db.map (fun f => if f.id == fid then { f with status := "false_positive" } else f) := by
        simp only [adjudicate_store, h, if_true]
      have hv : r.verdict = "false_positive" ∧ (7 : ℚ) / 10 ≤ r.confidence := by
        simpa [should_filter] using h
      rw [hdb, List.forall₂_map_right_iff, List.forall₂_same]
      intro f _
      by_cases hid : f.id = fid
      · have hb : (f.id == fid) = true := by simpa using hid
        rw [hb]
        exact ⟨by simp [hid, hv.1, hv.2], rfl⟩
      · have hb : (f.id == fid) = false := by simpa using hid
        rw [hb]
        exact ⟨by simp [hid], rfl⟩
    · have hb : should_filter
          { finding := fid, verdict := r.verdict, confidence := r.confidence,
            reasoning := r.reasoning, agent_pattern := pat } = false := by
        simpa using h
      have hdb : (adjudicate_store st fid r pat).db = st.db := by
        simp [adjudicate_store, hb]
      rw [hdb, List.forall₂_same]
      intro f _
      refine ⟨?_, rfl⟩
      rw [if_neg]
      rintro ⟨-, h1, h2⟩
      exact h (by simp [should_filter, h1, h2])
  · norm_num [adjudicate_store, should_filter, sampleFinding]
  · norm_num [adjudicate_store, should_filter, sampleFinding]

/-! ## C5 — multi-agent early exit -/

/-- C5: when triage classifies FALSE_POSITIVE with confidence at least
0.9 the multi-agent pipeline emits a false-positive verdict built solely
from the triage result and neither the explainer nor the fixer is
invoked; otherwise the explainer runs and the fixer runs exactly when the
explainer verdict is true_positive. -/
theorem multi_agent_early_exit (t : TriageResult) (e : ExplainerResult)
    (fx : Option FixerResult) :
    ((t.classification.getD "REVIEW" = "FALSE_POSITIVE" ∧
        (9 : ℚ) / 10 ≤ t.confidence.getD 0) →
      multi_agent_adjudicate t e fx =
        { verdict := "false_positive", confidence := t.confidence.getD ((9 : ℚ) / 10),
          reasoning := "Triage agent: " ++ t.reasoning.getD "False positive",
          cwe_id := none, recommendation := none, agent_pattern := "multi_agent",
          pipeline := "early_exit_after_triage",
          explainer_invoked := false, fixer_invoked := false }) ∧
    (¬(t.classification.getD "REVIEW" = "FALSE_POSITIVE" ∧
        (9 : ℚ) / 10 ≤ t.confidence.getD 0) →
      (multi_agent_adjudicate t e fx).explainer_invoked = true ∧
      (multi_agent_adjudicate t e fx).fixer_invoked = (e.verdict == some "true_positive") ∧
      (multi_agent_adjudicate t e fx).verdict = e.verdict.getD "uncertain" ∧
      (multi_agent_adjudicate t e fx).pipeline = "full_pipeline") := by
  constructor
  · intro h
    simp only [multi_agent_adjudicate, if_pos h]
  · intro h
    simp [multi_agent_adjudicate, if_neg h]

/-- Witness for C5 at the input the spec names: triage FALSE_POSITIVE
with confidence 0.95 short-circuits the pipeline. -/
theorem multi_agent_early_exit_witness :
    multi_agent_adjudicate
        ⟨some "FALSE_POSITIVE", some ((95 : ℚ) / 100), some "not exploitable"⟩
        ⟨some "true_positive", some ((8 : ℚ) / 10), some "analysis", none⟩ none =
      { verdict := "false_positive", confidence := (95 : ℚ) / 100,
        reasoning := "Triage agent: not exploitable",
        cwe_id := none, recommendation := none, agent_pattern := "multi_agent",
        pipeline := "early_exit_after_triage",
        explainer_invoked := false, fixer_invoked := false } := by
  have h := (multi_agent_early_exit
      ⟨some "FALSE_POSITIVE", some ((95 : ℚ) / 100), some "not exploitable"⟩
      ⟨some "true_positive", some ((8 : ℚ) / 10), some "analysis", none⟩ none).1
      ⟨rfl, by norm_num⟩
  simpa using h

/-! ## C9 — scan lifecycle timing -/

/-- C9 counterexample: the worker task path refutes the claim as stated.
The task assigns the start stamp itself on every invocation, so driving
a completed scan through the task again resets `started_at` from 1 to 5;
and because the terminal save restricts `update_fields` to status and
completion time, the duration the signal computes is never persisted on
this path. -/
theorem scan_task_restamps_start_counterexample :
    (task_mark_running (sampleScan "pending" none none) 1).started_at = some 1 ∧
    (task_mark_completed (task_mark_running (sampleScan "pending" none none) 1) 2).completed_at
      = some 2 ∧
    (task_mark_completed (task_mark_running (sampleScan "pending" none none) 1) 2).duration_seconds
      = none ∧
    (task_mark_running (task_mark_completed
        (task_mark_running (sampleScan "pending" none none) 1) 2) 5).started_at = some 5 := by
  decide

/-- C9 amended: the once-only and idempotence guarantees do hold for the
signal-guarded save path, where the caller assigns only the status: a
save into running never resets a set start stamp, a save into a terminal
status never resets a set completion stamp and persists the duration
computed from the two stamps, and re-triggering the transition a row is
already in changes nothing. -/
theorem scan_signal_timing (db : ScanRec) (now : Nat) :
    (db.started_at ≠ none → (statusSave db "running" now).started_at = db.started_at) ∧
    (∀ s, isTerminalStatus s = true → db.completed_at ≠ none →
      (statusSave db s now).completed_at = db.completed_at) ∧
    (∀ s t c, isTerminalStatus s = true → db.status ≠ s → db.started_at = some t →
      db.completed_at = some c →
      (statusSave db s now).duration_seconds = some ((c : Int) - (t : Int))) ∧
    (∀ s, db.status = s → statusSave db s now = db) := by
  refine ⟨?_, ?_, ?_, ?_⟩
  · intro hs
    by_cases hst : db.status = "running"
    · simp [statusSave, scanSave, scan_pre_save, persistFields, hst]
    · simp only [statusSave, scanSave, scan_pre_save, persistFields]
      rw [if_pos hst]
      rw [if_neg (by simp [hs])]
      simp [isTerminalStatus]
  · intro s hterm hc
    by_cases hst : db.status = s
    · simp [statusSave, scanSave, scan_pre_save, persistFields, hst]
    · simp only [statusSave, scanSave, scan_pre_save, persistFields]
      rw [if_pos hst]
      have hrun : ¬(s = "running" ∧ db.started_at = none) := by
        rintro ⟨rfl, -⟩
        simp [isTerminalStatus] at hterm
      rw [if_neg (by simpa using hrun), if_pos hterm]
      rcases h1 : db.completed_at with - | c
      · exact absurd h1 hc
      · rcases db.started_at with - | t <;> simp [h1]
  · intro s t c hterm hne hs hc
    simp only [statusSave, scanSave, scan_pre_save, persistFields]
    rw [if_pos hne]
    have hrun : ¬(s = "running" ∧ db.started_at = none) := by
      rintro ⟨rfl, -⟩
      simp [isTerminalStatus] at hterm
    rw [if_neg (by simpa using hrun), if_pos hterm]
    simp [hs, hc]
  · intro s hst
    subst hst
    simp only [statusSave, scanSave, scan_pre_save, persistFields]
    split
    · next hcon => exact absurd rfl hcon
    · rfl

/-- Witness for C9 amended at a concrete running row with both stamps
set: the running re-entry keeps the start stamp, the terminal save keeps
the completion stamp and persists duration 6, and re-triggering the
current status is the identity. -/
theorem scan_signal_timing_witness :
    ((statusSave (sampleScan "running" (some 3) (some 9)) "running" 11).started_at = some 3) ∧
    ((statusSave (sampleScan "running" (some 3) (some 9)) "completed" 11).completed_at = some 9) ∧
    ((statusSave (sampleScan "running" (some 3) (some 9)) "completed" 11).duration_seconds
      = some 6) ∧
    (statusSave (sampleScan "running" (some 3) (some 9)) "running" 11
      = sampleScan "running" (some 3) (some 9)) := by
  have h := scan_signal_timing (sampleScan "running" (some 3) (some 9)) 11
  refine ⟨h.1 (by decide), h.2.1 "completed" (by decide) (by decide), ?_, h.2.2.2 "running" rfl⟩
  have hd := h.2.2.1 "completed" 3 9 (by decide) (by decide) rfl rfl
  simpa using hd

/-! ## C7 — fingerprint determinism and input sensitivity -/

/-- C7 counterexample: two calls that differ in a single input, the file
path, produce the same fingerprint, because the path is lower-cased
before hashing; so a single-input change does not always change the
output. -/
theorem fingerprint_misses_path_case_change :
    generate_finding_fingerprint "SEC-001" "A.py" 3 (some 2) "msg" =
      generate_finding_fingerprint "SEC-001" "a.py" 3 (some 2) "msg" ∧
    ("A.py" : String) ≠ "a.py" := by
  exact ⟨rfl, by decide⟩

/-- Helper: one compression round always returns an 8-word state. -/
theorem foldl_shaRound_length (l : List (Nat × Nat)) (st : List Nat) (h : st.length = 8) :
    (l.foldl shaRound st).length = 8 := by
  induction l generalizing st with
  | nil => exact h
  | cons a t ih => exact ih _ rfl

/-- Helper: compressing a block preserves the 8-word state. -/
theorem shaCompress_length (hs block : List Nat) (h : hs.length = 8) :
    (shaCompress hs block).length = 8 := by
  have hf := foldl_shaRound_length (shaK.zip (extendWords (blockWords block))) hs h
  simp [shaCompress, List.length_zip, h, hf]

/-- Helper: folding compression over any block list preserves length 8. -/
theorem foldl_shaCompress_length (bs : List (List Nat)) (hs : List Nat) (h : hs.length = 8) :
    (bs.foldl shaCompress hs).length = 8 := by
  induction bs generalizing hs with
  | nil => exact h
  | cons b t ih => exact ih _ (shaCompress_length _ _ h)

/-- Helper: emitting 4 bytes per word quadruples the length. -/
theorem flatten_word_bytes_length (hs : List Nat) :
    ((hs.map (fun hw => [w8 (hw >>> 24), w8 (hw >>> 16), w8 (hw >>> 8), w8 hw])).flatten).length
      = 4 * hs.length := by
  induction hs with
  | nil => rfl
  | cons a t ih =>
    simp only [List.map_cons, List.flatten_cons, List.length_append, List.length_cons, ih]
    simp
    omega

/-- Helper: a SHA-256 digest is 32 bytes. -/
theorem sha256Bytes_length (msg : List Nat) : (sha256Bytes msg).length = 32 := by
  have h8 := foldl_shaCompress_length (shaBlocks (shaPad msg)) shaH0 rfl
  simp only [sha256Bytes]
  rw [flatten_word_bytes_length, h8]

/-- Helper: the length of a string fold of appends. -/
theorem foldl_append_length (l : List String) (s : String) :
    (l.foldl (fun r x => r ++ x) s).length = s.length + (l.map String.length).sum := by
  induction l generalizing s with
  | nil => simp
  | cons a t ih =>
    rw [List.foldl_cons, ih]
    simp
    omega

/-- Helper: hex-encoding bytes doubles the length. -/
theorem sum_byteHex_length (bs : List Nat) :
    ((bs.map byteHex).map String.length).sum = 2 * bs.length := by
  induction bs with
  | nil => rfl
  | cons a t ih =>
    simp only [List.map_cons, List.sum_cons, List.length_cons, ih]
    have h2 : (byteHex a).length = 2 := rfl
    omega

/-- Helper: a SHA-256 hex digest has 64 characters. -/
theorem sha256hex_length (msg : List Nat) : (sha256hex msg).length = 64 := by
  have h32 := sha256Bytes_length msg
  simp only [sha256hex, String.join]
  rw [foldl_append_length, sum_byteHex_length, h32]
  rfl

/-- C7 amended: the fingerprint function is pure and deterministic and
always yields a 64-character string, and a change to a single input
changes the output when the change survives normalization — shown at a
concrete tuple for each of the five inputs — but inputs that normalize
identically (such as a path differing only in letter case) yield the same
fingerprint. -/
theorem fingerprint_deterministic_and_sensitive :
    (∀ a b c d e, generate_finding_fingerprint a b c d e
      = generate_finding_fingerprint a b c d e) ∧
    (∀ a b c d e, (generate_finding_fingerprint a b c d e).length = 64) ∧
    generate_finding_fingerprint "R1" "src/a.py" 10 (some 5) "m1"
      ≠ generate_finding_fingerprint "R2" "src/a.py" 10 (some 5) "m1" ∧
    generate_finding_fingerprint "R1" "src/a.py" 10 (some 5) "m1"
      ≠ generate_finding_fingerprint "R1" "src/b.py" 10 (some 5) "m1" ∧
    generate_finding_fingerprint "R1" "src/a.py" 10 (some 5) "m1"
      ≠ generate_finding_fingerprint "R1" "src/a.py" 11 (some 5) "m1" ∧
    generate_finding_fingerprint "R1" "src/a.py" 10 (some 5) "m1"
      ≠ generate_finding_fingerprint "R1" "src/a.py" 10 (some 6) "m1" ∧
    generate_finding_fingerprint "R1" "src/a.py" 10 (some 5) "m1"
      ≠ generate_finding_fingerprint "R1" "src/a.py" 10 (some 5) "m2" := by
  refine ⟨fun a b c d e => rfl, fun a b c d e => ?_, by decide, by decide, by decide,
    by decide, by decide⟩
  simp only [generate_finding_fingerprint]
  exact sha256hex_length _

/-! ## C3 — quota-gated admission -/

/-- C3: concrete admission runs against a monthly limit of 5. One below
the limit, admission succeeds — but the queued quota task dies with a
NameError (the name `models` is unbound in apps/scans/tasks.py) before
saving, so the counter stays at 4 instead of being incremented to the
limit; at the limit, admission is rejected; a storage-quota breach logs
a warning yet the admission still succeeds. -/
theorem quota_counter_never_incremented :
    (admit_scan ⟨1, true, 5, 10⟩ 2026 10
      ⟨[⟨1, 2026, 10, 4, 0⟩], [], 1⟩).error = none ∧
    (admit_scan ⟨1, true, 5, 10⟩ 2026 10
      ⟨[⟨1, 2026, 10, 4, 0⟩], [], 1⟩).task_error
        = some "NameError: name models is not defined" ∧
    scansUsed (admit_scan ⟨1, true, 5, 10⟩ 2026 10
      ⟨[⟨1, 2026, 10, 4, 0⟩], [], 1⟩).state 1 2026 10 = 4 ∧
    (admit_scan ⟨1, true, 5, 10⟩ 2026 10
      ⟨[⟨1, 2026, 10, 4, 0⟩], [], 1⟩).state.scans.length = 1 ∧
    (admit_scan ⟨1, true, 5, 10⟩ 2026 10
      ⟨[⟨1, 2026, 10, 5, 0⟩], [], 1⟩).error = some "Monthly scan quota exceeded" ∧
    (admit_scan ⟨1, true, 5, 0⟩ 2026 10
      ⟨[⟨1, 2026, 10, 4, 0⟩], [], 1⟩).error = none ∧
    (admit_scan ⟨1, true, 5, 0⟩ 2026 10
      ⟨[⟨1, 2026, 10, 4, 0⟩], [], 1⟩).storage_warning = true := by
  refine ⟨by decide, by decide, by decide, by decide, by decide, by decide, ?_⟩
  norm_num [admit_scan, perform_create, getOrCreateQuota, storage_used_gb]

/-! ## C2 — resolved findings block re-ingestion -/

/-- C2: a result re-detecting the fingerprint of a finding already marked
false_positive is not matched by dedup (which only considers open and
in_review rows) — but instead of creating the fresh Finding the claim
describes, the insert violates the (organization, fingerprint) uniqueness
constraint, the result is recorded as an ingestion error, and the table
is left unchanged. -/
theorem resolved_finding_blocks_fresh_row :
    (process_result ⟨"semgrep", "1.0"⟩ 2 1 1 200
        ⟨[sampleFinding 1 1 c2Fingerprint "false_positive"], 0, 0, [], 2⟩
        (sampleResult "SEC-001" "src/app.py" "SQL injection" 10 1)).db
      = [sampleFinding 1 1 c2Fingerprint "false_positive"] ∧
    (process_result ⟨"semgrep", "1.0"⟩ 2 1 1 200
        ⟨[sampleFinding 1 1 c2Fingerprint "false_positive"], 0, 0, [], 2⟩
        (sampleResult "SEC-001" "src/app.py" "SQL injection" 10 1)).findings_created = 0 ∧
    (process_result ⟨"semgrep", "1.0"⟩ 2 1 1 200
        ⟨[sampleFinding 1 1 c2Fingerprint "false_positive"], 0, 0, [], 2⟩
        (sampleResult "SEC-001" "src/app.py" "SQL injection" 10 1)).findings_updated = 0 ∧
    (process_result ⟨"semgrep", "1.0"⟩ 2 1 1 200
        ⟨[sampleFinding 1 1 c2Fingerprint "false_positive"], 0, 0, [], 2⟩
        (sampleResult "SEC-001" "src/app.py" "SQL injection" 10 1)).errors
      = ["Error processing SARIF result: IntegrityError: duplicate organization and fingerprint"]
      := by
  refine ⟨?_, ?_, ?_, ?_⟩ <;> decide

/-! ## Dedup ingestion lemmas for C1 and C10 -/

/-- Helper: an occurrence merge does not touch the core fields. -/
theorem coreOf_update_occurrence (f : Finding) (scan now : Nat) :
    coreOf (f.update_occurrence scan now) = coreOf f := rfl

/-- Helper: the in-place dedup save relates the old and new tables row by
row: cores untouched, and every row either kept or merged. -/
theorem updateFirstMatch_forall₂ (organization : Nat) (fp : String) (scan now : Nat)
    (db : List Finding) :
    List.Forall₂ (fun a b => coreOf a = coreOf b ∧ a.occurrence_count ≤ b.occurrence_count ∧
        (b = a ∨ b = a.update_occurrence scan now))
      db (updateFirstMatch organization fp scan now db) := by
  induction db with
  | nil => exact List.Forall₂.nil
  | cons f rest ih =>
    cases hm : isDedupMatch organization fp f with
    | true =>
      simp only [updateFirstMatch, hm, if_true]
      refine List.Forall₂.cons ⟨rfl, Nat.le_succ _, Or.inr rfl⟩ ?_
      exact List.forall₂_same.mpr (fun x _ => ⟨rfl, Nat.le_refl _, Or.inl rfl⟩)
    | false =>
      simp only [updateFirstMatch, hm, if_false]
      exact List.Forall₂.cons ⟨rfl, Nat.le_refl _, Or.inl rfl⟩ ih

/-- Helper: transfer a member through a `Forall₂` relation. -/
theorem forall₂_exists_mem {α β : Type} {R : α → β → Prop} {l : List α} {l' : List β}
    (h : List.Forall₂ R l l') {a : α} (ha : a ∈ l) : ∃ b ∈ l', R a b := by
  induction h with
  | nil => cases ha
  | @cons x y t t' hr _ ih =>
    rcases List.mem_cons.mp ha with rfl | ha'
    · exact ⟨y, List.mem_cons_self _ _, hr⟩
    · obtain ⟨b, hb, hab⟩ := ih ha'
      exact ⟨b, List.mem_cons_of_mem _ hb, hab⟩

/-- Helper: a core-preserving table rewrite keeps every dedup key. -/
theorem keyPresent_of_forall₂ {organization : Nat} {fp : String} {db db' : List Finding}
    (h : List.Forall₂ (fun a b => coreOf a = coreOf b) db db')
    (hp : dedupKeyPresent organization fp db) : dedupKeyPresent organization fp db' := by
  obtain ⟨f, hf, h1, h2⟩ := hp
  obtain ⟨g, hg, hfg⟩ := forall₂_exists_mem h hf
  refine ⟨g, hg, ?_, ?_⟩
  · have := congrArg Finding.organization hfg
    simpa [coreOf] using (this ▸ h1)
  · have := congrArg Finding.fingerprint hfg
    simpa [coreOf] using (this ▸ h2)

/-- Helper: the insert raises the integrity error when the key exists. -/
theorem insertFinding_error_of_present {db : List Finding} {f : Finding}
    (h : dedupKeyPresent f.organization f.fingerprint db) :
    insertFinding db f = Except.error "IntegrityError: duplicate organization and fingerprint" := by
  unfold insertFinding
  rw [if_pos]
  obtain ⟨g, hg, h1, h2⟩ := h
  exact List.any_eq_true.mpr ⟨g, hg, by simp [h1, h2]⟩

/-- Helper: a successful insert appends the new row. -/
theorem insertFinding_ok {db : List Finding} {f : Finding} {db2 : List Finding}
    (h : insertFinding db f = Except.ok db2) : db2 = db ++ [f] := by
  unfold insertFinding at h
  split at h
  · exact absurd h (by simp)
  · injection h with h'
    exact h'.symm

/-- Helper: a failing insert means the key was already present. -/
theorem present_of_insertFinding_error {db : List Finding} {f : Finding} {e : String}
    (h : insertFinding db f = Except.error e) :
    dedupKeyPresent f.organization f.fingerprint db := by
  unfold insertFinding at h
  split at h
  · next hany =>
    obtain ⟨g, hg, hgp⟩ := List.any_eq_true.mp hany
    refine ⟨g, hg, ?_⟩
    simpa using hgp
  · exact absurd h (by simp)

/-- Helper: one processed result never removes a dedup key. -/
theorem process_result_keyPresent (ti : ToolInfo) (scan organization repository now : Nat)
    (st : IngestState) (r : SarifResult) (korg : Nat) (kfp : String)
    (h : dedupKeyPresent korg kfp st.db) :
    dedupKeyPresent korg kfp (process_result ti scan organization repository now st r).db := by
  cases hloc : r.locations with
  | nil => simpa [process_result, hloc] using h
  | cons location rest =>
    simp only [process_result, hloc]
    cases hdedup : deduplicate_finding st.db
        (generate_finding_fingerprint (r.ruleId.getD "UNKNOWN") (location.uri.getD "unknown")
          (location.startLine.getD 1) (some (location.startColumn.getD 1))
          (r.messageText.getD "No description available")) organization with
    | some f =>
      simp only [hdedup]
      exact keyPresent_of_forall₂
        ((updateFirstMatch_forall₂ _ _ _ _ _).imp (fun _ _ hab => hab.1)) h
    | none =>
      simp only [hdedup]
      cases hins : insertFinding st.db _ with
      | ok db2 =>
        simp only [hins]
        obtain ⟨g, hg, hp⟩ := h
        exact ⟨g, by rw [insertFinding_ok hins]; exact List.mem_append_left _ hg, hp⟩
      | error e =>
        simp only [hins]
        exact h

/-- Helper: after a located result is processed, its own key is present. -/
theorem process_result_post_present (ti : ToolInfo) (scan organization repository now : Nat)
    (st : IngestState) (r : SarifResult) (hloc : r.locations ≠ []) :
    dedupKeyPresent organization (fpOfResult r)
      (process_result ti scan organization repository now st r).db := by
  cases hl : r.locations with
  | nil => exact absurd hl hloc
  | cons location rest =>
    have hfp : fpOfResult r = generate_finding_fingerprint (r.ruleId.getD "UNKNOWN")
        (location.uri.getD "unknown") (location.startLine.getD 1)
        (some (location.startColumn.getD 1)) (r.messageText.getD "No description available") := by
      simp [fpOfResult, hl]
    simp only [process_result, hl, ← hfp]
    cases hdedup : deduplicate_finding st.db (fpOfResult r) organization with
    | some f =>
      simp only [hdedup]
      have hf := List.find?_some hdedup
      have hmem := List.mem_of_find?_eq_some hdedup
      have hprops : f.organization = organization ∧ f.fingerprint = fpOfResult r := by
        have := hf
        simp only [isDedupMatch, Bool.and_eq_true, beq_iff_eq] at this
        exact ⟨this.1.1, this.1.2⟩
      exact keyPresent_of_forall₂
        ((updateFirstMatch_forall₂ _ _ _ _ _).imp (fun _ _ hab => hab.1))
        ⟨f, hmem, hprops.1, hprops.2⟩
    | none =>
      simp only [hdedup]
      cases hins : insertFinding st.db _ with
      | ok db2 =>
        simp only [hins]
        refine ⟨_, by rw [insertFinding_ok hins]; exact List.mem_append_right _ (List.mem_singleton_self _), rfl, rfl⟩
      | error e =>
        simp only [hins]
        exact present_of_insertFinding_error hins

/-- Helper: rows with the same core are matched by dedup alike — the
match predicate reads only organization, fingerprint and status. -/
theorem isDedupMatch_core {a b : Finding} (h : coreOf a = coreOf b)
    (organization : Nat) (fp : String) :
    isDedupMatch organization fp a = isDedupMatch organization fp b := by
  have ho := congrArg Finding.organization h
  have hf := congrArg Finding.fingerprint h
  have hs := congrArg Finding.status h
  simp only [coreOf] at ho hf hs
  simp [isDedupMatch, ho, hf, hs]

/-- Helper: `mergedRow` composes within one pass. -/
theorem mergedRow_trans {scan now : Nat} {a b c : Finding}
    (h1 : mergedRow scan now a b) (h2 : mergedRow scan now b c) :
    mergedRow scan now a c := by
  rcases h1 with rfl | h1
  · exact h2
  · rcases h2 with rfl | h2
    · exact Or.inr h1
    · exact Or.inr ⟨h1.1.trans h2.1, h1.2.1.trans h2.2.1, h2.2.2⟩

/-- Helper: `mergedRow` composes row by row. -/
theorem forall₂_mergedRow_trans {scan now : Nat} {a b c : List Finding}
    (h1 : List.Forall₂ (mergedRow scan now) a b)
    (h2 : List.Forall₂ (mergedRow scan now) b c) :
    List.Forall₂ (mergedRow scan now) a c := by
  induction h1 generalizing c with
  | nil => cases h2; exact List.Forall₂.nil
  | @cons x y t t' hxy _ ih =>
    cases h2 with
    | cons hyz ht' => exact List.Forall₂.cons (mergedRow_trans hxy hyz) (ih ht')

/-- Helper: the in-place dedup save only performs occurrence merges. -/
theorem updateFirstMatch_mergedRow (organization : Nat) (fp : String) (scan now : Nat)
    (db : List Finding) :
    List.Forall₂ (mergedRow scan now) db (updateFirstMatch organization fp scan now db) := by
  refine (updateFirstMatch_forall₂ organization fp scan now db).imp ?_
  rintro a b ⟨hcore, hocc, rfl | rfl⟩
  · exact Or.inl rfl
  · exact Or.inr ⟨hcore, Nat.lt_succ_self _, rfl, rfl⟩

/-- Helper: when a located result finds its key already in the table, the
step creates nothing and every row is untouched or occurrence-merged. -/
theorem process_result_no_create (ti : ToolInfo) (scan organization repository now : Nat)
    (st : IngestState) (r : SarifResult)
    (h : r.locations = [] ∨ dedupKeyPresent organization (fpOfResult r) st.db) :
    (process_result ti scan organization repository now st r).findings_created
        = st.findings_created ∧
    List.Forall₂ (mergedRow scan now) st.db
      (process_result ti scan organization repository now st r).db := by
  have hrefl : List.Forall₂ (mergedRow scan now) st.db st.db :=
    List.forall₂_same.mpr (fun x _ => Or.inl rfl)
  cases hl : r.locations with
  | nil => simp only [process_result, hl]; exact ⟨by trivial, hrefl⟩
  | cons location rest =>
    have hpres : dedupKeyPresent organization (fpOfResult r) st.db := by
      rcases h with h | h
      · rw [hl] at h; cases h
      · exact h
    have hfp : fpOfResult r = generate_finding_fingerprint (r.ruleId.getD "UNKNOWN")
        (location.uri.getD "unknown") (location.startLine.getD 1)
        (some (location.startColumn.getD 1)) (r.messageText.getD "No description available") := by
      simp [fpOfResult, hl]
    simp only [process_result, hl, ← hfp]
    cases hdedup : deduplicate_finding st.db (fpOfResult r) organization with
    | some f =>
      simp only [hdedup]
      exact ⟨by trivial, updateFirstMatch_mergedRow _ _ _ _ _⟩
    | none =>
      simp only [hdedup]
      rw [insertFinding_error_of_present hpres]
      exact ⟨by trivial, hrefl⟩

/-- Helper: unfolding one step of the pair fold. -/
theorem processPairs_cons (scan organization repository now : Nat) (st : IngestState)
    (p : ToolInfo × SarifResult) (t : List (ToolInfo × SarifResult)) :
    processPairs scan organization repository now st (p :: t) =
      processPairs scan organization repository now
        (process_result p.1 scan organization repository now st p.2) t := rfl

/-- Helper: the pair fold never removes a dedup key. -/
theorem processPairs_keyPresent (scan organization repository now : Nat)
    (pairs : List (ToolInfo × SarifResult)) (st : IngestState) (korg : Nat) (kfp : String)
    (h : dedupKeyPresent korg kfp st.db) :
    dedupKeyPresent korg kfp (processPairs scan organization repository now st pairs).db := by
  induction pairs generalizing st with
  | nil => exact h
  | cons q t ih =>
    rw [processPairs_cons]
    exact ih _ (process_result_keyPresent _ _ _ _ _ _ _ _ _ h)

/-- Helper: after a full pass, the key of every located result of the
pass is present in the table. -/
theorem processPairs_post_present (scan organization repository now : Nat)
    (pairs : List (ToolInfo × SarifResult)) (st : IngestState)
    (p : ToolInfo × SarifResult) (hp : p ∈ pairs) (hloc : p.2.locations ≠ []) :
    dedupKeyPresent organization (fpOfResult p.2)
      (processPairs scan organization repository now st pairs).db := by
  induction pairs generalizing st with
  | nil => cases hp
  | cons q t ih =>
    rw [processPairs_cons]
    rcases List.mem_cons.mp hp with rfl | hp'
    · exact processPairs_keyPresent _ _ _ _ _ _ _ _
        (process_result_post_present _ _ _ _ _ _ _ hloc)
    · exact ih _ hp'

/-- Helper: a pass all of whose located results have their keys in the
starting table creates nothing and only occurrence-merges rows. -/
theorem processPairs_no_create (scan organization repository now : Nat)
    (pairs : List (ToolInfo × SarifResult)) (st : IngestState)
    (h : ∀ p ∈ pairs, p.2.locations = [] ∨ dedupKeyPresent organization (fpOfResult p.2) st.db) :
    (processPairs scan organization repository now st pairs).findings_created
        = st.findings_created ∧
    List.Forall₂ (mergedRow scan now) st.db
      (processPairs scan organization repository now st pairs).db := by
  induction pairs generalizing st with
  | nil => exact ⟨rfl, List.forall₂_same.mpr (fun x _ => Or.inl rfl)⟩
  | cons q t ih =>
    have hq := process_result_no_create q.1 scan organization repository now st q.2
      (h q (List.mem_cons_self _ _))
    have hrest : ∀ p ∈ t, p.2.locations = [] ∨ dedupKeyPresent organization (fpOfResult p.2)
        (process_result q.1 scan organization repository now st q.2).db := by
      intro p hp
      rcases h p (List.mem_cons_of_mem _ hp) with h' | h'
      · exact Or.inl h'
      · exact Or.inr (process_result_keyPresent _ _ _ _ _ _ _ _ _ h')
    have ihr := ih _ hrest
    rw [processPairs_cons]
    exact ⟨ihr.1.trans hq.1, forall₂_mergedRow_trans hq.2 ihr.2⟩

/-- Helper: a core-preserving table rewrite keeps every matchable key. -/
theorem matchable_of_forall₂ {organization : Nat} {fp : String} {db db' : List Finding}
    (h : List.Forall₂ (fun a b => coreOf a = coreOf b) db db')
    (hm : matchablePresent organization fp db) : matchablePresent organization fp db' := by
  obtain ⟨f, hf, hpred⟩ := hm
  obtain ⟨g, hg, hfg⟩ := forall₂_exists_mem h hf
  exact ⟨g, hg, (isDedupMatch_core hfg organization fp) ▸ hpred⟩

/-- Helper: one processed result never removes a matchable key — merges
keep organization, fingerprint and status, and inserts only add rows. -/
theorem process_result_matchable (ti : ToolInfo) (scan organization repository now : Nat)
    (st : IngestState) (r : SarifResult) (korg : Nat) (kfp : String)
    (h : matchablePresent korg kfp st.db) :
    matchablePresent korg kfp (process_result ti scan organization repository now st r).db := by
  cases hloc : r.locations with
  | nil => simpa [process_result, hloc] using h
  | cons location rest =>
    simp only [process_result, hloc]
    cases hdedup : deduplicate_finding st.db
        (generate_finding_fingerprint (r.ruleId.getD "UNKNOWN") (location.uri.getD "unknown")
          (location.startLine.getD 1) (some (location.startColumn.getD 1))
          (r.messageText.getD "No description available")) organization with
    | some f =>
      simp only [hdedup]
      exact matchable_of_forall₂
        ((updateFirstMatch_forall₂ _ _ _ _ _).imp (fun _ _ hab => hab.1)) h
    | none =>
      simp only [hdedup]
      cases hins : insertFinding st.db _ with
      | ok db2 =>
        simp only [hins]
        obtain ⟨g, hg, hp⟩ := h
        exact ⟨g, by rw [insertFinding_ok hins]; exact List.mem_append_left _ hg, hp⟩
      | error e =>
        simp only [hins]
        exact h

/-- Helper: a step never shortens the error list. -/
theorem process_result_errors_le (ti : ToolInfo) (scan organization repository now : Nat)
    (st : IngestState) (r : SarifResult) :
    st.errors.length ≤ (process_result ti scan organization repository now st r).errors.length := by
  cases hl : r.locations with
  | nil => simp [process_result, hl]
  | cons location rest =>
    simp only [process_result, hl]
    cases hdedup : deduplicate_finding st.db _ organization with
    | some f => simp
    | none =>
      cases hins : insertFinding st.db _ with
      | ok db2 => simp
      | error e => simp

/-- Helper: a located result whose step records no error leaves its own
key matchable: it was either merged into a matchable row or inserted as a
fresh open row. -/
theorem process_result_matchable_post (ti : ToolInfo) (scan organization repository now : Nat)
    (st : IngestState) (r : SarifResult) (hloc : r.locations ≠ [])
    (herr : (process_result ti scan organization repository now st r).errors.length
        = st.errors.length) :
    matchablePresent organization (fpOfResult r)
      (process_result ti scan organization repository now st r).db := by
  cases hl : r.locations with
  | nil => exact absurd hl hloc
  | cons location rest =>
    have hfp : fpOfResult r = generate_finding_fingerprint (r.ruleId.getD "UNKNOWN")
        (location.uri.getD "unknown") (location.startLine.getD 1)
        (some (location.startColumn.getD 1)) (r.messageText.getD "No description available") := by
      simp [fpOfResult, hl]
    simp only [process_result, hl, ← hfp] at herr ⊢
    cases hdedup : deduplicate_finding st.db (fpOfResult r) organization with
    | some f =>
      simp only [hdedup]
      have hpred := List.find?_some hdedup
      have hmem := List.mem_of_find?_eq_some hdedup
      exact matchable_of_forall₂
        ((updateFirstMatch_forall₂ _ _ _ _ _).imp (fun _ _ hab => hab.1)) ⟨f, hmem, hpred⟩
    | none =>
      simp only [hdedup] at herr ⊢
      cases hins : insertFinding st.db _ with
      | ok db2 =>
        simp only [hins]
        rw [insertFinding_ok hins]
        refine ⟨_, List.mem_append_right _ (List.mem_singleton_self _), ?_⟩
        simp [isDedupMatch]
      | error e =>
        rw [hins] at herr
        simp at herr

/-- Helper: the pair fold never shortens the error list. -/
theorem processPairs_errors_le (scan organization repository now : Nat)
    (pairs : List (ToolInfo × SarifResult)) (st : IngestState) :
    st.errors.length ≤ (processPairs scan organization repository now st pairs).errors.length := by
  induction pairs generalizing st with
  | nil => exact Nat.le_refl _
  | cons q t ih =>
    rw [processPairs_cons]
    exact Nat.le_trans (process_result_errors_le _ _ _ _ _ _ _) (ih _)

/-- Helper: the pair fold never removes a matchable key. -/
theorem processPairs_matchable (scan organization repository now : Nat)
    (pairs : List (ToolInfo × SarifResult)) (st : IngestState) (korg : Nat) (kfp : String)
    (h : matchablePresent korg kfp st.db) :
    matchablePresent korg kfp (processPairs scan organization repository now st pairs).db := by
  induction pairs generalizing st with
  | nil => exact h
  | cons q t ih =>
    rw [processPairs_cons]
    exact ih _ (process_result_matchable _ _ _ _ _ _ _ _ _ h)

/-- Helper: after an error-free pass, every located result of the pass
has a matchable row — same key, status still open or in review. -/
theorem processPairs_post_matchable (scan organization repository now : Nat)
    (pairs : List (ToolInfo × SarifResult)) (st : IngestState)
    (herr : (processPairs scan organization repository now st pairs).errors.length
        = st.errors.length) :
    ∀ p ∈ pairs, p.2.locations ≠ [] →
      matchablePresent organization (fpOfResult p.2)
        (processPairs scan organization repository now st pairs).db := by
  induction pairs generalizing st with
  | nil => intro p hp; cases hp
  | cons q t ih =>
    rw [processPairs_cons] at herr ⊢
    have h1 := process_result_errors_le q.1 scan organization repository now st q.2
    have h2 := processPairs_errors_le scan organization repository now t
      (process_result q.1 scan organization repository now st q.2)
    have hstep : (process_result q.1 scan organization repository now st q.2).errors.length
        = st.errors.length := by omega
    intro p hp hploc
    rcases List.mem_cons.mp hp with rfl | hp'
    · exact processPairs_matchable _ _ _ _ _ _ _ _
        (process_result_matchable_post _ _ _ _ _ _ _ hploc hstep)
    · exact ih _ (by omega) p hp' hploc

/-- Helper: merging into a matchable row raises the total occurrence
count by exactly one. -/
theorem updateFirstMatch_occ_sum {organization : Nat} {fp : String} (scan now : Nat)
    {db : List Finding} (h : ∃ f ∈ db, isDedupMatch organization fp f = true) :
    ((updateFirstMatch organization fp scan now db).map Finding.occurrence_count).sum
      = (db.map Finding.occurrence_count).sum + 1 := by
  induction db with
  | nil => obtain ⟨f, hf, -⟩ := h; cases hf
  | cons g rest ih =>
    cases hm : isDedupMatch organization fp g with
    | true =>
      simp only [updateFirstMatch, hm, if_true, List.map_cons, List.sum_cons]
      simp [Finding.update_occurrence]
      omega
    | false =>
      have h' : ∃ f ∈ rest, isDedupMatch organization fp f = true := by
        obtain ⟨f, hf, hpred⟩ := h
        rcases List.mem_cons.mp hf with rfl | hf'
        · rw [hm] at hpred; cases hpred
        · exact ⟨f, hf', hpred⟩
      have hstep : updateFirstMatch organization fp scan now (g :: rest)
          = g :: updateFirstMatch organization fp scan now rest := by
        simp [updateFirstMatch, hm]
      rw [hstep]
      simp only [List.map_cons, List.sum_cons]
      rw [ih h']
      omega

/-- Helper: a located result with a matchable key is merged: the update
counter rises by one, no error is recorded, nothing is created, the
total occurrence count rises by one, and the rows are merge-related. -/
theorem process_result_matched_step (ti : ToolInfo) (scan organization repository now : Nat)
    (st : IngestState) (r : SarifResult) (hloc : r.locations ≠ [])
    (hm : matchablePresent organization (fpOfResult r) st.db) :
    (process_result ti scan organization repository now st r).findings_updated
        = st.findings_updated + 1 ∧
    (process_result ti scan organization repository now st r).errors = st.errors ∧
    (process_result ti scan organization repository now st r).findings_created
        = st.findings_created ∧
    ((process_result ti scan organization repository now st r).db.map
        Finding.occurrence_count).sum = (st.db.map Finding.occurrence_count).sum + 1 ∧
    List.Forall₂ (mergedRow scan now) st.db
      (process_result ti scan organization repository now st r).db := by
  cases hl : r.locations with
  | nil => exact absurd hl hloc
  | cons location rest =>
    have hfp : fpOfResult r = generate_finding_fingerprint (r.ruleId.getD "UNKNOWN")
        (location.uri.getD "unknown") (location.startLine.getD 1)
        (some (location.startColumn.getD 1)) (r.messageText.getD "No description available") := by
      simp [fpOfResult, hl]
    simp only [process_result, hl, ← hfp]
    cases hdedup : deduplicate_finding st.db (fpOfResult r) organization with
    | none =>
      exfalso
      obtain ⟨f, hf, hpred⟩ := hm
      exact absurd hpred (by simpa using List.find?_eq_none.mp hdedup f hf)
    | some f =>
      simp only [hdedup]
      exact ⟨by trivial, by trivial, by trivial, updateFirstMatch_occ_sum scan now hm,
        updateFirstMatch_mergedRow _ _ _ _ _⟩

/-- Helper: a pass all of whose located results have matchable keys
merges every one of them: the update counter rises by the located-result
count, no error is recorded, nothing is created, the total occurrence
count rises by the located-result count, and the rows are merge-related. -/
theorem processPairs_all_matched (scan organization repository now : Nat)
    (pairs : List (ToolInfo × SarifResult)) (st : IngestState)
    (h : ∀ p ∈ pairs, p.2.locations ≠ [] → matchablePresent organization (fpOfResult p.2) st.db) :
    (processPairs scan organization repository now st pairs).findings_updated
        = st.findings_updated + (pairs.filter (fun p => !p.2.locations.isEmpty)).length ∧
    (processPairs scan organization repository now st pairs).errors = st.errors ∧
    (processPairs scan organization repository now st pairs).findings_created
        = st.findings_created ∧
    ((processPairs scan organization repository now st pairs).db.map
        Finding.occurrence_count).sum
      = (st.db.map Finding.occurrence_count).sum
          + (pairs.filter (fun p => !p.2.locations.isEmpty)).length ∧
    List.Forall₂ (mergedRow scan now) st.db
      (processPairs scan organization repository now st pairs).db := by
  induction pairs generalizing st with
  | nil =>
    exact ⟨rfl, rfl, rfl, rfl, List.forall₂_same.mpr (fun x _ => Or.inl rfl)⟩
  | cons q t ih =>
    rw [processPairs_cons]
    cases hql : q.2.locations with
    | nil =>
      have hstep : process_result q.1 scan organization repository now st q.2 = st := by
        simp [process_result, hql]
      have hfil : (q :: t).filter (fun p => !p.2.locations.isEmpty)
          = t.filter (fun p => !p.2.locations.isEmpty) := by
        simp [List.filter_cons, hql]
      rw [hstep, hfil]
      exact ih st (fun p hp => h p (List.mem_cons_of_mem _ hp))
    | cons location rest =>
      have hql' : q.2.locations ≠ [] := by rw [hql]; simp
      have hmq := h q (List.mem_cons_self _ _) hql'
      have hstep := process_result_matched_step q.1 scan organization repository now st q.2
        hql' hmq
      have hnext : ∀ p ∈ t, p.2.locations ≠ [] →
          matchablePresent organization (fpOfResult p.2)
            (process_result q.1 scan organization repository now st q.2).db :=
        fun p hp hpl =>
          process_result_matchable _ _ _ _ _ _ _ _ _ (h p (List.mem_cons_of_mem _ hp) hpl)
      have ihr := ih _ hnext
      have hfil : ((q :: t).filter (fun p => !p.2.locations.isEmpty)).length
          = (t.filter (fun p => !p.2.locations.isEmpty)).length + 1 := by
        simp [List.filter_cons, hql]
      refine ⟨?_, ?_, ?_, ?_, ?_⟩
      · rw [ihr.1, hstep.1, hfil]; omega
      · rw [ihr.2.1, hstep.2.1]
      · rw [ihr.2.2.1, hstep.2.2.1]
      · rw [ihr.2.2.2.1, hstep.2.2.2.1, hfil]; omega
      · exact forall₂_mergedRow_trans hstep.2.2.2.2 ihr.2.2.2.2

/-- Helper: `extract_findings` is the pair fold over the document. -/
theorem extract_findings_eq (doc : SarifDoc) (scan organization repository now : Nat)
    (db : List Finding) (nid : Nat) :
    extract_findings doc scan organization repository now db nid =
      processPairs scan organization repository now
        { db, findings_created := 0, findings_updated := 0, errors := [], nextId := nid }
        (docPairs doc) := by
  suffices hgen : ∀ (runs : List SarifRun) (st : IngestState),
      runs.foldl (fun st run =>
        run.results.foldl (process_result (toolInfoOf run) scan organization repository now) st) st
        = processPairs scan organization repository now st
            ((runs.map (fun run => run.results.map (fun r => (toolInfoOf run, r)))).flatten) by
    simpa [extract_findings, docPairs] using hgen doc.runs _
  intro runs
  induction runs with
  | nil => intro st; rfl
  | cons run rest ih =>
    intro st
    simp only [List.foldl_cons, List.map_cons, List.flatten_cons]
    have hinner : run.results.foldl
        (process_result (toolInfoOf run) scan organization repository now) st
        = processPairs scan organization repository now st
            (run.results.map (fun r => (toolInfoOf run, r))) := by
      simp only [processPairs, List.foldl_map]
    rw [ih, hinner]
    simp only [processPairs, List.foldl_append]

/-! ## C1 — dedup idempotence -/

/-- C1: ingesting the same SARIF document a second time for the same
tenant is a pure merge. Unconditionally the second pass creates no
finding, keeps the table length, and rewrites every row either to itself
or to an occurrence merge: same core fields, occurrence counter strictly
increased, last-seen scan pointer moved to the second scan and its
timestamp to the second ingestion time. When the first pass recorded no
error, moreover, every located result of the document dedup-matches a
first-pass row carrying its organization and fingerprint with status
open or in_review, the second pass records no error, its update counter
equals the number of located results, and the total occurrence count
across the table grows by exactly that number — so each re-sighted
finding is matched, counted and re-stamped, never duplicated or
dropped, and a no-op second pass is excluded. -/
theorem dedup_idempotent (doc : SarifDoc) (scan1 scan2 organization repository : Nat)
    (now1 now2 : Nat) (db : List Finding) (nid : Nat) (S1 S2 : IngestState)
    (hS1 : S1 = extract_findings doc scan1 organization repository now1 db nid)
    (hS2 : S2 = extract_findings doc scan2 organization repository now2 S1.db S1.nextId) :
    (S2.findings_created = 0 ∧ S2.db.length = S1.db.length ∧
      List.Forall₂ (mergedRow scan2 now2) S1.db S2.db) ∧
    (S1.errors = [] →
      (∀ p ∈ docPairs doc, p.2.locations ≠ [] →
        ∃ f, deduplicate_finding S1.db (fpOfResult p.2) organization = some f ∧
          f.organization = organization ∧ f.fingerprint = fpOfResult p.2 ∧
          (f.status = "open" ∨ f.status = "in_review")) ∧
      S2.errors = [] ∧
      S2.findings_updated = locatedCount doc ∧
      (S2.db.map Finding.occurrence_count).sum
        = (S1.db.map Finding.occurrence_count).sum + locatedCount doc) := by
  subst hS1 hS2
  have hpass1 := extract_findings_eq doc scan1 organization repository now1 db nid
  have hpass2 := extract_findings_eq doc scan2 organization repository now2
    (extract_findings doc scan1 organization repository now1 db nid).db
    (extract_findings doc scan1 organization repository now1 db nid).nextId
  refine ⟨?_, ?_⟩
  · have hpres : ∀ p ∈ docPairs doc, p.2.locations = [] ∨
        dedupKeyPresent organization (fpOfResult p.2)
          (extract_findings doc scan1 organization repository now1 db nid).db := by
      intro p hp
      by_cases hloc : p.2.locations = []
      · exact Or.inl hloc
      · refine Or.inr ?_
        rw [hpass1]
        exact processPairs_post_present scan1 organization repository now1 _ _ p hp hloc
    have h := processPairs_no_create scan2 organization repository now2 (docPairs doc)
      { db := (extract_findings doc scan1 organization repository now1 db nid).db,
        findings_created := 0, findings_updated := 0, errors := [],
        nextId := (extract_findings doc scan1 organization repository now1 db nid).nextId } hpres
    rw [hpass2]
    exact ⟨h.1, (h.2.length_eq).symm, h.2⟩
  · intro herr1
    rw [hpass1] at herr1
    have herrlen : (processPairs scan1 organization repository now1
        { db := db, findings_created := 0, findings_updated := 0, errors := [], nextId := nid }
        (docPairs doc)).errors.length = 0 := by
      rw [herr1]
      rfl
    have hmatch0 := processPairs_post_matchable scan1 organization repository now1
      (docPairs doc)
      { db := db, findings_created := 0, findings_updated := 0, errors := [], nextId := nid }
      herrlen
    rw [← hpass1] at hmatch0
    have hmatch : ∀ p ∈ docPairs doc, p.2.locations ≠ [] →
        ∃ f, deduplicate_finding
            (extract_findings doc scan1 organization repository now1 db nid).db
            (fpOfResult p.2) organization = some f ∧
          f.organization = organization ∧ f.fingerprint = fpOfResult p.2 ∧
          (f.status = "open" ∨ f.status = "in_review") := by
      intro p hp hpl
      obtain ⟨g, hg, hgpred⟩ := hmatch0 p hp hpl
      cases hfind : deduplicate_finding
          (extract_findings doc scan1 organization repository now1 db nid).db
          (fpOfResult p.2) organization with
      | none =>
        simp only [deduplicate_finding] at hfind
        exact absurd hgpred (by simpa using List.find?_eq_none.mp hfind g hg)
      | some f =>
        have hfpred : isDedupMatch organization (fpOfResult p.2) f = true := by
          have h' := hfind
          simp only [deduplicate_finding] at h'
          exact List.find?_some h'
        simp only [isDedupMatch, Bool.and_eq_true, Bool.or_eq_true, beq_iff_eq] at hfpred
        exact ⟨f, rfl, hfpred.1.1, hfpred.1.2, hfpred.2⟩
    have hall := processPairs_all_matched scan2 organization repository now2 (docPairs doc)
      { db := (extract_findings doc scan1 organization repository now1 db nid).db,
        findings_created := 0, findings_updated := 0, errors := [],
        nextId := (extract_findings doc scan1 organization repository now1 db nid).nextId }
      (fun p hp hpl => hmatch0 p hp hpl)
    refine ⟨hmatch, ?_, ?_, ?_⟩
    · rw [hpass2]
      exact hall.2.1
    · rw [hpass2, hall.1]
      simp [locatedCount]
    · rw [hpass2, hall.2.2.2.1]
      simp [locatedCount]

/-- Witness for `dedup_idempotent`: the one-result document `c1Doc`
ingested twice into an empty table — the first pass is error-free, so
the second pass is error-free, its update counter is the located-result
count, and the total occurrence count grows by it. -/
theorem dedup_idempotent_witness :
    (extract_findings c1Doc 1 1 1 100 [] 1).errors = [] ∧
    (extract_findings c1Doc 2 1 1 200 (extract_findings c1Doc 1 1 1 100 [] 1).db
        (extract_findings c1Doc 1 1 1 100 [] 1).nextId).errors = [] ∧
    (extract_findings c1Doc 2 1 1 200 (extract_findings c1Doc 1 1 1 100 [] 1).db
        (extract_findings c1Doc 1 1 1 100 [] 1).nextId).findings_updated
      = locatedCount c1Doc ∧
    ((extract_findings c1Doc 2 1 1 200 (extract_findings c1Doc 1 1 1 100 [] 1).db
        (extract_findings c1Doc 1 1 1 100 [] 1).nextId).db.map
          Finding.occurrence_count).sum
      = ((extract_findings c1Doc 1 1 1 100 [] 1).db.map Finding.occurrence_count).sum
          + locatedCount c1Doc := by
  have herr : (extract_findings c1Doc 1 1 1 100 [] 1).errors = [] := by decide
  have h := dedup_idempotent c1Doc 1 2 1 1 100 200 [] 1
    (extract_findings c1Doc 1 1 1 100 [] 1)
    (extract_findings c1Doc 2 1 1 200 (extract_findings c1Doc 1 1 1 100 [] 1).db
      (extract_findings c1Doc 1 1 1 100 [] 1).nextId) rfl rfl
  have hc := h.2 herr
  exact ⟨herr, hc.2.1, hc.2.2.1, hc.2.2.2⟩

/-! ## C10 — the dedup merge frame -/

/-- C10: when a result matches an existing open or in-review finding, the
ingestion step creates nothing, keeps the table length, and rewrites each
row either to itself or to its occurrence merge — which bumps the
counter, moves the last-seen pointer and timestamp, and by
`coreOf`-equality leaves fingerprint, rule identity, message, severity,
status, location, snippet and the first-seen pointer untouched, whatever
the new result carries. -/
theorem dedup_merge_frame (ti : ToolInfo) (scan organization repository now : Nat)
    (st : IngestState) (r : SarifResult) (f : Finding)
    (hloc : r.locations ≠ [])
    (hfound : deduplicate_finding st.db (fpOfResult r) organization = some f) :
    (process_result ti scan organization repository now st r).findings_created
        = st.findings_created ∧
    (process_result ti scan organization repository now st r).db.length = st.db.length ∧
    List.Forall₂ (fun a b => coreOf a = coreOf b ∧ (b = a ∨ b = a.update_occurrence scan now))
      st.db (process_result ti scan organization repository now st r).db := by
  cases hl : r.locations with
  | nil => exact absurd hl hloc
  | cons location rest =>
    have hfp : fpOfResult r = generate_finding_fingerprint (r.ruleId.getD "UNKNOWN")
        (location.uri.getD "unknown") (location.startLine.getD 1)
        (some (location.startColumn.getD 1)) (r.messageText.getD "No description available") := by
      simp [fpOfResult, hl]
    rw [hfp] at hfound
    simp only [process_result, hl, hfound]
    exact ⟨by trivial, ((updateFirstMatch_forall₂ _ _ _ _ _).imp
        (fun _ _ hab => hab.1)).length_eq.symm,
      (updateFirstMatch_forall₂ _ _ _ _ _).imp (fun _ _ hab => ⟨hab.1, hab.2.2⟩)⟩

/-- Witness for C10: a re-sighted SQL-injection finding carrying a
different level and snippet is merged in place: nothing is created, the
table keeps one row, and the row is exactly the occurrence merge of the
stored finding. -/
theorem dedup_merge_frame_witness :
    (process_result ⟨"semgrep", "1.0"⟩ 7 1 1 300
        ⟨[sampleFinding 1 1 c2Fingerprint "open"], 0, 0, [], 2⟩ c10Result).findings_created
      = 0 ∧
    (process_result ⟨"semgrep", "1.0"⟩ 7 1 1 300
        ⟨[sampleFinding 1 1 c2Fingerprint "open"], 0, 0, [], 2⟩ c10Result).db.length = 1 ∧
    List.Forall₂ (fun a b => coreOf a = coreOf b ∧ (b = a ∨ b = a.update_occurrence 7 300))
      [sampleFinding 1 1 c2Fingerprint "open"]
      (process_result ⟨"semgrep", "1.0"⟩ 7 1 1 300
        ⟨[sampleFinding 1 1 c2Fingerprint "open"], 0, 0, [], 2⟩ c10Result).db :=
  dedup_merge_frame ⟨"semgrep", "1.0"⟩ 7 1 1 300
    ⟨[sampleFinding 1 1 c2Fingerprint "open"], 0, 0, [], 2⟩ c10Result
    (sampleFinding 1 1 c2Fingerprint "open") (by decide) (by decide)

/-! ## Clustering lemmas for C6 and C8 -/

/-- Helper: the square root of four. -/
theorem real_sqrt_four : Real.sqrt 4 = 2 := by
  rw [show (4 : ℝ) = 2 ^ 2 by norm_num]
  exact Real.sqrt_sq (by norm_num)

/-- Helper: the norm of a one-dimensional vector is the absolute value. -/
theorem vecNorm_singleton (a : ℝ) : vecNorm [a] = |a| := by
  simp [vecNorm, Real.sqrt_sq_eq_abs]

/-- Helper: the member embeddings looked up through the zip dictionary. -/
theorem c8_member_embeddings : [1, 2, 3].map (embOf c8Ids c8Embeddings) = c8Embeddings := by
  simp [embOf, c8Ids, c8Embeddings, List.find?]

/-- Helper: the centroid of the three embeddings. -/
theorem c8_centroid : centroidOf c8Embeddings = [2] := by
  norm_num [centroidOf, c8Embeddings, List.getD, show List.range 1 = [0] from rfl]

/-- Helper: the member distances to the centroid. -/
theorem c8_distances : c8Embeddings.map (fun v => vecNorm (vecSub v [2])) = [2, 2, 0] := by
  simp only [c8Embeddings, List.map_cons, List.map_nil, vecSub, List.zipWith_cons_cons,
    List.zipWith_nil_left, vecNorm_singleton]
  norm_num

/-- Helper: the first minimum of the distance list is at index 2. -/
theorem c8_argmin : argminIdx [(2 : ℝ), 2, 0] = 2 := by
  norm_num [argminIdx, List.getD]

/-- Helper: the documented selection picks the third member, whose
embedding is the one nearest to the centroid. -/
theorem c8_identify : identify_cluster_representative c8Embeddings c8Ids = 3 := by
  simp only [identify_cluster_representative]
  rw [if_neg (by decide : ¬c8Ids.length = 1)]
  rw [c8_centroid, c8_distances, c8_argmin]
  rfl

/-- Helper: the stored cohesion score is one minus the mean distance of
the members to the centroid. -/
theorem cohesion_one_minus_mean (vs : List Vec) (h : vs.isEmpty = false) :
    (calculate_cluster_statistics vs).cohesion_score = 1 - meanDistToCentroid vs := by
  simp [calculate_cluster_statistics, h, meanDistToCentroid, distancesToCentroid]

/-! ## C6 — clustering runs do not replace prior clusters -/

/-- C6: a first clustering run on an empty scope persists the single
cluster cluster_0 with its three memberships; re-running the identical
clustering on the same scope does not replace it — the insert of the
second run violates the (organization, cluster_label) uniqueness
constraint because nothing was deleted first, the run aborts with an
integrity error, and the tables still hold exactly the FIRST run's
clusters and memberships. -/
theorem clustering_second_run_rejected :
    c8Run.2.2 = none ∧
    c8Run.1.clusters.map FindingCluster.cluster_label = ["cluster_0"] ∧
    c8Run.1.memberships.map ClusterMembership.finding = [1, 2, 3] ∧
    c8Run2.2.2 = some "IntegrityError: duplicate organization and cluster_label" ∧
    c8Run2.1 = c8Run.1 := by
  refine ⟨?_, ?_, ?_, ?_, ?_⟩ <;>
    simp [c8Run, c8Run2, store_clusters, store_clusters_go, c8Clusters, clusterFindingsDb,
      sampleFinding, List.find?, List.filterMap_cons]

/-! ## C8 — cluster representative and cohesion -/

/-- C8: against the spec, the persisted representative of the stored
cluster is its FIRST member (finding 1), although the member nearest the
centroid — returned by `identify_cluster_representative`, which
`store_clusters` never calls — is finding 3; the cohesion part of the
claim does hold: the persisted score is one minus the mean member
distance to the centroid. -/
theorem cluster_representative_is_first_member :
    c8Run.1.clusters.map FindingCluster.representative_finding = [1] ∧
    identify_cluster_representative c8Embeddings c8Ids = 3 ∧
    (1 : Nat) ≠ 3 ∧
    c8Run.1.clusters.map FindingCluster.cohesion_score
      = [1 - meanDistToCentroid c8Embeddings] := by
  refine ⟨?_, c8_identify, by decide, ?_⟩
  · simp [c8Run, store_clusters, store_clusters_go, c8Clusters, clusterFindingsDb,
      sampleFinding, List.find?, List.filterMap_cons]
  · have hstats : c8Run.1.clusters.map FindingCluster.cohesion_score
        = [(calculate_cluster_statistics ([1, 2, 3].map (embOf c8Ids c8Embeddings))).cohesion_score] := by
      simp [c8Run, store_clusters, store_clusters_go, c8Clusters, clusterFindingsDb,
        sampleFinding, List.find?, List.filterMap_cons, c8Ids]
    rw [hstats, c8_member_embeddings, cohesion_one_minus_mean]
    simp [c8Embeddings]

end ReviewPro
